import Mathlib

/-!
Shallow embedding of the SCTP outbound packetization core
(net/sctp/output.c) and proofs about its admission, bundling and
emission logic.

The C code mutates a `struct sctp_packet` together with its transport
and association.  The embedding collects those mutable fields into one
state record `St` and renders every C function as a pure state
transformer.  Machine arithmetic that can overflow is modelled
explicitly: the `__u16 chunk_len` truncation in the raw append is
`u16trunc`, and `size_t` subtractions that may wrap are `usub`.
Code paths that dereference a NULL association pointer are modelled by
`Except Unit`, with `Except.error ()` standing for the dereference.
-/

namespace SctpOut

/-- SCTP_PAD4 from the kernel: round up to a multiple of 4 (in `int`
arithmetic, which never overflows for the operand ranges here). -/
def SCTP_PAD4 (n : Nat) : Nat := (n + 3) / 4 * 4

/-- Truncation to `__u16`, as in the assignment
`__u16 chunk_len = SCTP_PAD4(ntohs(chunk->chunk_hdr->length))`. -/
def u16trunc (n : Nat) : Nat := n % 65536

/-- Wrapping `size_t` subtraction (64-bit). -/
def usub (a b : Nat) : Nat := (((a : Int) - (b : Int)) % ((2 ^ 64 : Nat) : Int)).toNat

/-- sizeof(struct sctphdr): 12 bytes. -/
def sizeof_sctphdr : Nat := 12

/-- sizeof(sctp_data_chunk_t): 4-byte chunk header plus 12-byte data header. -/
def sizeof_sctp_data_chunk : Nat := 16

/-- sizeof(struct ipv6hdr), the overhead default when no association exists. -/
def sizeof_ipv6hdr : Nat := 40

/-- The verdict enumeration sctp_xmit_t. -/
inductive sctp_xmit_t where
  | ok
  | pmtuFull
  | rwndFull
  | delay
deriving DecidableEq, Repr

/-- The chunk types this module dispatches on (SCTP_CID_DATA, SACK, AUTH,
COOKIE_ECHO); every other chunk id behaves uniformly and is `otherCid`. -/
inductive ChunkType where
  | dataCid
  | sackCid
  | authCid
  | cookieEchoCid
  | otherCid
deriving DecidableEq, Repr

/-- The fields of struct sctp_chunk that net/sctp/output.c reads or
writes.  `cid` models the chunk's identity (its address) so that the
pointer comparison `chunk == packet->auth` can be expressed on values.
`auth_flag` is `chunk->auth` (the peer asked for this chunk type to be
authenticated); `need_frtx` is `chunk->fast_retransmit == SCTP_NEED_FRTX`;
`has_asoc` is `chunk->asoc != NULL`; `tsn_assigned`/`ssn_assigned` record
the calls to the external sctp_chunk_assign_tsn/ssn allocators;
`transport_set` records `chunk->transport = packet->transport`. -/
structure Chunk where
  cid : Nat
  ctype : ChunkType
  hdr_length : Nat
  skb_len : Nat
  auth_flag : Bool
  need_frtx : Bool
  msg_can_delay : Bool
  msg_can_abandon : Bool
  resent : Bool
  sent_count : Nat
  sent_at : Nat
  rtt_in_progress : Bool
  data_size : Nat
  has_asoc : Bool
  tsn_assigned : Bool
  ssn_assigned : Bool
  transport_set : Bool
deriving DecidableEq, Repr

/-- sctp_chunk_is_data: the chunk id equals SCTP_CID_DATA. -/
def sctp_chunk_is_data (c : Chunk) : Bool := c.ctype = ChunkType.dataCid

/-- The association fields this module touches (peer window, outqueue
counters, SACK timer state, socket nodelay flag, stats, autoclose). -/
structure Assoc where
  pathmtu : Nat
  peer_rwnd : Nat
  peer_sack_needed : Bool
  peer_sack_generation : Nat
  peer_prsctp_capable : Bool
  peer_last_sent_to_tp : Bool
  rwnd : Nat
  a_rwnd : Nat
  outq_outstanding_bytes : Nat
  outq_out_qlen : Nat
  established : Bool
  nodelay : Bool
  sack_timer_pending : Bool
  stats_osacks : Nat
  stats_opackets : Nat
  autoclose : Nat
deriving DecidableEq, Repr

/-- The combined mutable state: the packet accumulator, its transport,
the optional association reachable as transport->asoc, and the socket
error slot sk->sk_err written by sctp_packet_transmit_chunk. -/
structure St where
  source_port : Nat
  destination_port : Nat
  vtag : Nat
  chunk_list : List Chunk
  size : Nat
  overhead : Nat
  max_size : Nat
  has_cookie_echo : Bool
  has_sack : Bool
  has_data : Bool
  has_auth : Bool
  ipfragok : Bool
  auth : Option Chunk
  tp_pathmtu : Nat
  tp_cwnd : Nat
  tp_burst_limited : Nat
  tp_flight_size : Nat
  tp_rto_pending : Bool
  tp_sack_generation : Nat
  asoc : Option Assoc
  sk_err : Nat
deriving DecidableEq, Repr

/-- sctp_packet_reset: size back to overhead, flags cleared, auth pointer
cleared.  Note that the C function does not touch chunk_list. -/
def sctp_packet_reset (s : St) : St :=
  { s with size := s.overhead, has_cookie_echo := false, has_sack := false,
           has_data := false, has_auth := false, ipfragok := false, auth := none }

/-- sctp_packet_init: commit ports, empty the chunk list, compute the
overhead from the address family header length (or the IPv6 header when
there is no association) plus the SCTP common header, then reset. -/
def sctp_packet_init (s : St) (sport dport net_header_len : Nat) : St :=
  let overhead :=
    (match s.asoc with
     | some _ => net_header_len
     | none => sizeof_ipv6hdr) + sizeof_sctphdr
  let s1 := { s with source_port := sport, destination_port := dport,
                     chunk_list := [], overhead := overhead }
  { sctp_packet_reset s1 with vtag := 0 }

/-- sctp_packet_empty: `packet->size == packet->overhead`. -/
def sctp_packet_empty (s : St) : Bool := s.size = s.overhead

/-- The pmtu read by sctp_packet_will_fit: the association pathmtu when
present, otherwise the transport pathmtu. -/
def packetPmtu (s : St) : Nat :=
  match s.asoc with
  | some a => a.pathmtu
  | none => s.tp_pathmtu

/-- sctp_packet_will_fit.  Reads the association pathmtu when present,
otherwise the transport pathmtu.  When the chunk does not fit, the
empty-packet (or data-less packet with an AUTH-requiring chunk) rule
sets ipfragok and admits; otherwise the sequence of overriding checks
can leave SCTP_XMIT_PMTU_FULL.  Returns the verdict together with the
packet state (only ipfragok can change). -/
def sctp_packet_will_fit (s : St) (c : Chunk) (chunk_len : Nat) : sctp_xmit_t × St :=
  let psize := s.size
  let pmtu := packetPmtu s
  if psize + chunk_len > pmtu then
    if sctp_packet_empty s = true ∨ (s.has_data = false ∧ c.auth_flag = true) then
      (sctp_xmit_t.ok, { s with ipfragok := true })
    else
      let maxsize0 := usub pmtu s.overhead
      let maxsize := match s.auth with
        | some au => usub maxsize0 (SCTP_PAD4 au.skb_len)
        | none => maxsize0
      let r1 := if chunk_len > maxsize then sctp_xmit_t.pmtuFull else sctp_xmit_t.ok
      let r2 := if sctp_chunk_is_data c = false ∧ s.has_data = true then
          sctp_xmit_t.pmtuFull else r1
      let r3 := if psize + chunk_len > s.max_size then sctp_xmit_t.pmtuFull else r2
      let r4 := if s.tp_burst_limited = 0 ∧ psize + chunk_len > s.tp_cwnd / 2 then
          sctp_xmit_t.pmtuFull else r3
      let r5 := if s.tp_burst_limited ≠ 0 ∧ psize + chunk_len > s.tp_burst_limited / 2 then
          sctp_xmit_t.pmtuFull else r4
      (r5, s)
  else
    (sctp_xmit_t.ok, s)

/-- sctp_packet_can_append_data, with the association passed explicitly
(the C function dereferences transport->asoc unconditionally; the caller
models the NULL case). -/
def sctp_packet_can_append_data (s : St) (a : Assoc) (c : Chunk) : sctp_xmit_t :=
  let rwnd := a.peer_rwnd
  let inflight := a.outq_outstanding_bytes
  let flight_size := s.tp_flight_size
  let datasize := c.data_size
  if datasize > rwnd ∧ inflight > 0 then
    sctp_xmit_t.rwndFull
  else if c.need_frtx = false ∧ flight_size ≥ s.tp_cwnd then
    sctp_xmit_t.rwndFull
  else if a.nodelay = true then
    sctp_xmit_t.ok
  else if sctp_packet_empty s = false then
    sctp_xmit_t.ok
  else if inflight = 0 then
    sctp_xmit_t.ok
  else if a.established = false then
    sctp_xmit_t.ok
  else if c.skb_len + a.outq_out_qlen >
      usub (usub (usub s.tp_pathmtu s.overhead) sizeof_sctp_data_chunk) 4 then
    sctp_xmit_t.ok
  else if c.msg_can_delay = false then
    sctp_xmit_t.ok
  else
    sctp_xmit_t.delay

/-- sctp_packet_append_data: flight-size and outstanding-bytes grow by
the data size, the rwnd view shrinks (clamped at zero), a non-PR-SCTP
association clears can_abandon, and the external TSN/SSN allocators are
invoked (recorded as the assigned flags). -/
def sctp_packet_append_data (s : St) (a : Assoc) (c : Chunk) : St × Chunk :=
  let datasize := c.data_size
  let rwnd := a.peer_rwnd
  let rwnd2 := if datasize < rwnd then rwnd - datasize else 0
  let a2 := { a with outq_outstanding_bytes := a.outq_outstanding_bytes + datasize,
                     peer_rwnd := rwnd2 }
  let c2 := { c with msg_can_abandon :=
                       if a.peer_prsctp_capable = true then c.msg_can_abandon else false,
                     tsn_assigned := true, ssn_assigned := true }
  ({ s with tp_flight_size := s.tp_flight_size + datasize, asoc := some a2 }, c2)

/-- The common tail of the raw append: link the chunk at the list tail,
grow size by the padded length, set chunk->transport. -/
def append_tail (s : St) (c : Chunk) (chunk_len : Nat) : St × Chunk :=
  let c2 := { c with transport_set := true }
  ({ s with chunk_list := s.chunk_list ++ [c2], size := s.size + chunk_len }, c2)

/-- The raw append __sctp_packet_append_chunk.  The padded length is
truncated to __u16 exactly as in the C declaration.  The DATA arm calls
sctp_packet_append_data, which dereferences transport->asoc; a NULL
association there is `Except.error ()`. -/
def sctp_packet_append_chunk_raw (s : St) (c : Chunk) (now : Nat) :
    Except Unit (sctp_xmit_t × St) :=
  let chunk_len := u16trunc (SCTP_PAD4 c.hdr_length)
  let p := sctp_packet_will_fit s c chunk_len
  if p.1 ≠ sctp_xmit_t.ok then
    Except.ok (p.1, p.2)
  else
    let s1 := p.2
    match c.ctype with
    | ChunkType.dataCid =>
      match s1.asoc with
      | none => Except.error ()
      | some a =>
        let q := sctp_packet_append_data s1 a c
        let s2 := { q.1 with has_sack := true, has_auth := true, has_data := true }
        let c2 := { q.2 with sent_at := now, sent_count := q.2.sent_count + 1 }
        Except.ok (sctp_xmit_t.ok, (append_tail s2 c2 chunk_len).1)
    | ChunkType.cookieEchoCid =>
      Except.ok (sctp_xmit_t.ok, (append_tail { s1 with has_cookie_echo := true } c chunk_len).1)
    | ChunkType.sackCid =>
      let asoc2 := match s1.asoc with
        | some a =>
          if c.has_asoc = true then
            some { a with stats_osacks := a.stats_osacks + 1 }
          else some a
        | none => (none : Option Assoc)
      let s2 := { s1 with has_sack := true, asoc := asoc2 }
      Except.ok (sctp_xmit_t.ok, (append_tail s2 c chunk_len).1)
    | ChunkType.authCid =>
      let r := append_tail { s1 with has_auth := true } c chunk_len
      Except.ok (sctp_xmit_t.ok, { r.1 with auth := some r.2 })
    | ChunkType.otherCid =>
      Except.ok (sctp_xmit_t.ok, (append_tail s1 c chunk_len).1)

/-- The environment of an append call: the external chunk factories
sctp_make_auth and sctp_make_sack (returning NULL on failure) and the
current jiffies value. -/
structure ApEnv where
  mkAuth : Option Chunk
  mkSack : Option Chunk
  now : Nat
deriving DecidableEq, Repr

/-- sctp_packet_bundle_auth: skip without an association, when the
chunk is itself AUTH or one is already bundled, or when the chunk does
not require authentication; otherwise build an AUTH chunk and raw-append
it, freeing it (no state effect in the model) on failure. -/
def sctp_packet_bundle_auth (s : St) (c : Chunk) (env : ApEnv) :
    Except Unit (sctp_xmit_t × St) :=
  match s.asoc with
  | none => Except.ok (sctp_xmit_t.ok, s)
  | some _ =>
    if c.ctype = ChunkType.authCid ∨ s.has_auth = true then
      Except.ok (sctp_xmit_t.ok, s)
    else if c.auth_flag = false then
      Except.ok (sctp_xmit_t.ok, s)
    else
      match env.mkAuth with
      | none => Except.ok (sctp_xmit_t.ok, s)
      | some au => sctp_packet_append_chunk_raw s au env.now

/-- sctp_packet_bundle_sack: only for a DATA chunk on a packet without a
SACK or COOKIE_ECHO; dereferences asoc->timers (NULL association is the
error).  When the SACK timer is pending and the generations match, the
association a_rwnd is refreshed, a SACK is built and raw-appended; on
success sack_needed is cleared and the timer cancelled. -/
def sctp_packet_bundle_sack (s : St) (c : Chunk) (env : ApEnv) :
    Except Unit (sctp_xmit_t × St) :=
  if sctp_chunk_is_data c = true ∧ s.has_sack = false ∧ s.has_cookie_echo = false then
    match s.asoc with
    | none => Except.error ()
    | some a =>
      if a.sack_timer_pending = true then
        if s.tp_sack_generation ≠ a.peer_sack_generation then
          Except.ok (sctp_xmit_t.ok, s)
        else
          let a1 := { a with a_rwnd := a.rwnd }
          let s1 := { s with asoc := some a1 }
          match env.mkSack with
          | none => Except.ok (sctp_xmit_t.ok, s1)
          | some sk =>
            match sctp_packet_append_chunk_raw s1 sk env.now with
            | Except.error e => Except.error e
            | Except.ok (v, s2) =>
              if v ≠ sctp_xmit_t.ok then
                Except.ok (v, s2)
              else
                let asoc3 := match s2.asoc with
                  | some a2 => some { a2 with peer_sack_needed := false,
                                              sack_timer_pending := false }
                  | none => (none : Option Assoc)
                let s3 := { s2 with asoc := asoc3 }
                Except.ok (sctp_xmit_t.ok, s3)
      else
        Except.ok (sctp_xmit_t.ok, s)
  else
    Except.ok (sctp_xmit_t.ok, s)

/-- The bundling-and-raw-append tail shared by every public append. -/
def sctp_packet_append_chunk_tail (s : St) (c : Chunk) (env : ApEnv) :
    Except Unit (sctp_xmit_t × St) :=
  match sctp_packet_bundle_auth s c env with
  | Except.error e => Except.error e
  | Except.ok (v1, s1) =>
    if v1 ≠ sctp_xmit_t.ok then
      Except.ok (v1, s1)
    else
      match sctp_packet_bundle_sack s1 c env with
      | Except.error e => Except.error e
      | Except.ok (v2, s2) =>
        if v2 ≠ sctp_xmit_t.ok then
          Except.ok (v2, s2)
        else
          sctp_packet_append_chunk_raw s2 c env.now

/-- The public sctp_packet_append_chunk: DATA chunks run the
can-append-data gate first (dereferencing transport->asoc), then AUTH
bundling, SACK bundling and the raw append, each short-circuiting on a
non-OK verdict. -/
def sctp_packet_append_chunk (s : St) (c : Chunk) (env : ApEnv) :
    Except Unit (sctp_xmit_t × St) :=
  if sctp_chunk_is_data c = true then
    match s.asoc with
    | none => Except.error ()
    | some a =>
      let v := sctp_packet_can_append_data s a c
      if v ≠ sctp_xmit_t.ok then
        Except.ok (v, s)
      else
        sctp_packet_append_chunk_tail s c env
  else
    sctp_packet_append_chunk_tail s c env

/-- The environment of one sctp_packet_transmit call: whether the socket
can GSO, whether the head and per-sub-packet skb allocations succeed,
whether a route (dst) is available, whether the GRO merge of each
sub-packet succeeds, and the socket gso_max_segs limit. -/
structure TxEnv where
  canGso : Bool
  headAllocOk : Bool
  dstOk : Bool
  subAllocOk : Nat → Bool
  groOk : Nat → Bool
  gsoMaxSegs : Nat

/-- The observable output of one sctp_packet_transmit call: the chunk
streams copied into each emitted sub-buffer (in order), the packet
counter, whether the GSO path ran, the gso_segs value recorded on the
head buffer, whether the buffer was handed to the IP transmit primitive,
whether the head buffer was allocated, the ignore_df flag, the cids of
the chunks freed, and whether the AUTOCLOSE timer was restarted. -/
structure TxOut where
  subPackets : List (List Chunk)
  pktcount : Nat
  gso : Bool
  gsoSegsRecorded : Option Nat
  transmitted : Bool
  headAllocated : Bool
  ignoreDf : Bool
  freed : List Nat
  autocloseRestarted : Bool
deriving DecidableEq, Repr

/-- The all-quiet output: nothing allocated, nothing emitted. -/
def txOutNone : TxOut :=
  { subPackets := [], pktcount := 0, gso := false, gsoSegsRecorded := none,
    transmitted := false, headAllocated := false, ignoreDf := false,
    freed := [], autocloseRestarted := false }

/-- Result of the drain pass over the head of chunk_list. -/
structure DrainRes where
  stream : List Chunk
  rem : List Chunk
  has_data : Bool
  rto_pending : Bool
deriving DecidableEq, Repr

/-- The inner drain loop of sctp_packet_transmit: unlink chunks from the
head of the list, arm one RTT measurement for the first eligible DATA
chunk, copy each chunk into the sub-buffer, and stop when pkt_size
(an `int`, here `Int`) reaches exactly zero.  Zero padding of a chunk's
skb to the 4-byte boundary has no effect on any later length
computation (SCTP_PAD4 is idempotent), so the chunk value is kept with
its unpadded skb_len. -/
def tx_drain (authCid : Option Nat) : List Chunk → Int → Bool → DrainRes
  | [], _, rto => { stream := [], rem := [], has_data := false, rto_pending := rto }
  | c :: rest, pktSize, rto =>
    let p := if sctp_chunk_is_data c = true ∧ c.resent = false ∧ rto = false then
        ({ c with rtt_in_progress := true }, true)
      else (c, rto)
    let hasD := sctp_chunk_is_data c
    let pktSize1 := pktSize - ((SCTP_PAD4 c.skb_len : Nat) : Int)
    if pktSize1 = 0 then
      { stream := [p.1], rem := rest, has_data := hasD, rto_pending := p.2 }
    else
      let q := tx_drain authCid rest pktSize1 p.2
      { stream := p.1 :: q.stream, rem := q.rem,
        has_data := hasD || q.has_data, rto_pending := q.rto_pending }

/-- The GSO sub-packet size computation: walk chunk_list summing padded
skb lengths into pkt_size; the AUTH chunk records its padded length in
auth_len (and is also counted); a chunk that cannot share a PMTU-sized
sub-packet with the AUTH chunk aborts to nomem; accumulation stops at
the first chunk that would push pkt_size past the transport pathmtu.
Returns pkt_size (overhead included) and the updated auth_len. -/
def tx_gso_calc (pmtu ovh : Nat) (authCid : Option Nat) :
    List Chunk → Nat → Nat → Except Unit (Nat × Nat)
  | [], authLen, pktSize => Except.ok (pktSize, authLen)
  | c :: rest, authLen, pktSize =>
    let padded := SCTP_PAD4 c.skb_len
    if authCid = some c.cid then
      tx_gso_calc pmtu ovh authCid rest padded (pktSize + padded)
    else if authLen + padded + ovh > pmtu then
      Except.error ()
    else if pktSize + padded > pmtu then
      Except.ok (pktSize, authLen)
    else
      tx_gso_calc pmtu ovh authCid rest authLen (pktSize + padded)

/-- The state threaded through the do-while loop of
sctp_packet_transmit. -/
structure TxLoopSt where
  rem : List Chunk
  rto_pending : Bool
  pauth : Option Chunk
  auth_len : Nat
  pktcount : Nat
  subPackets : List (List Chunk)
  has_data : Bool
  freed : List Nat
deriving Repr

/-- Outcome of the do-while loop: normal exit, a jump to the nomem
cleanup label, or divergence (out of fuel; the C loop would not
terminate). -/
inductive TxLoopRes where
  | done (st : TxLoopSt)
  | nomem (st : TxLoopSt)
  | diverge
deriving Repr

/-- The do-while loop of sctp_packet_transmit.  Each iteration bumps
pktcount, computes the sub-packet size (GSO) or takes the whole packet
size (non-GSO), allocates the sub-buffer (GSO), drains chunks into it,
frees drained control chunks other than AUTH, back-patches the HMAC
(external, no modelled effect), re-queues or frees the AUTH chunk, and
for GSO merges the sub-buffer into the head and checks the gso_segs
limit (modelled by comparing pktcount with gso_max_segs).  The fuel
argument only rules out divergence; it is not part of the source. -/
def tx_loop (env : TxEnv) (gso : Bool) (pmtu ovh nonGsoPktSize : Nat) :
    Nat → TxLoopSt → TxLoopRes
  | 0, _ => TxLoopRes.diverge
  | Nat.succ fuel, st =>
    let pc := st.pktcount + 1
    let sizeRes : Except Unit (Nat × Nat) :=
      if gso = true then
        tx_gso_calc pmtu ovh (st.pauth.map Chunk.cid) st.rem st.auth_len ovh
      else
        Except.ok (nonGsoPktSize, st.auth_len)
    match sizeRes with
    | Except.error _ => TxLoopRes.nomem { st with pktcount := pc }
    | Except.ok (pktSize, authLen) =>
      if gso = true ∧ env.subAllocOk pc = false then
        TxLoopRes.nomem { st with pktcount := pc, auth_len := authLen }
      else
        let d := tx_drain (st.pauth.map Chunk.cid) st.rem
          (((pktSize : Nat) : Int) - ((ovh : Nat) : Int)) st.rto_pending
        let freedHere := (d.stream.filter (fun x => sctp_chunk_is_data x = false ∧
            st.pauth.map Chunk.cid ≠ some x.cid)).map Chunk.cid
        let p2 : Option Chunk × List Nat × List Chunk := match st.pauth with
          | some au =>
            if d.rem = [] then (none, st.freed ++ freedHere ++ [au.cid], d.rem)
            else (some au, st.freed ++ freedHere, au :: d.rem)
          | none => (none, st.freed ++ freedHere, d.rem)
        let st2 : TxLoopSt := { rem := p2.2.2, rto_pending := d.rto_pending,
                                pauth := p2.1, auth_len := authLen, pktcount := pc,
                                subPackets := st.subPackets ++ [d.stream],
                                has_data := st.has_data || d.has_data, freed := p2.2.1 }
        if gso = false then TxLoopRes.done st2
        else if env.groOk pc = false then TxLoopRes.nomem st2
        else if pc ≥ env.gsoMaxSegs then TxLoopRes.nomem st2
        else if st2.rem = [] then TxLoopRes.done st2
        else tx_loop env gso pmtu ovh nonGsoPktSize fuel st2

/-- Write the loop state back into the packet state. -/
def tx_writeback (s : St) (st : TxLoopSt) : St :=
  { s with chunk_list := st.rem, tp_rto_pending := st.rto_pending, auth := st.pauth }

/-- The err cleanup label of sctp_packet_transmit: unlink every chunk,
free the non-DATA ones (DATA ownership returns to the retransmit
queue), then fall into out: reset the packet and return err, which is
still 0.  At every nomem jump the AUTH chunk is either already freed or
still linked in chunk_list, so the defensive free under the nomem label
never fires and the AUTH chunk is released here with the other control
chunks. -/
def tx_err (s : St) (out : TxOut) : Int × St × TxOut :=
  let freedHere := (s.chunk_list.filter (fun c => sctp_chunk_is_data c = false)).map Chunk.cid
  (0, sctp_packet_reset { s with chunk_list := [] },
   { out with freed := out.freed ++ freedHere })

/-- sctp_packet_transmit.  An empty chunk list returns success with no
action at all.  Otherwise the function decides GSO, allocates the head
buffer, resolves the route, emits the common header, runs the sub-packet
loop, computes checksum/ECN (external, no modelled effect), updates the
association stats and the AUTOCLOSE timer, records gso_segs, and hands
the buffer to the address-family transmit primitive; every exit resets
the packet.  The local err variable is initialized to 0 and never
assigned, so every completed path returns 0.  `Except.error ()` models
the NULL-association dereference in the AUTOCLOSE block and loop
divergence. -/
def sctp_packet_transmit (s : St) (env : TxEnv) : Except Unit (Int × St × TxOut) :=
  if s.chunk_list = [] then Except.ok (0, s, txOutNone)
  else
    let gso : Bool := decide (s.size > s.tp_pathmtu) && !s.ipfragok
    if gso = true ∧ env.canGso = false then
      Except.ok (tx_err s txOutNone)
    else if env.headAllocOk = false then
      Except.ok (tx_err s txOutNone)
    else
      let out0 := { txOutNone with headAllocated := true, gso := gso }
      if env.dstOk = false then
        Except.ok (tx_err s out0)
      else
        let fuel := s.chunk_list.length + 1
        let st0 : TxLoopSt := { rem := s.chunk_list, rto_pending := s.tp_rto_pending,
                                pauth := s.auth, auth_len := 0, pktcount := 0,
                                subPackets := [], has_data := false, freed := [] }
        match tx_loop env gso s.tp_pathmtu s.overhead s.size fuel st0 with
        | TxLoopRes.diverge => Except.error ()
        | TxLoopRes.nomem st =>
          Except.ok (tx_err (tx_writeback s st)
            { out0 with subPackets := st.subPackets, pktcount := st.pktcount,
                        freed := st.freed })
        | TxLoopRes.done st =>
          let s1 := tx_writeback s st
          let asoc4 : Option Assoc := match s1.asoc with
            | some a => some { a with stats_opackets := a.stats_opackets + st.pktcount,
                                      peer_last_sent_to_tp := true }
            | none => none
          let s2 := { s1 with asoc := asoc4 }
          let segs : Option Nat := if gso = true then some st.pktcount else none
          let out1 := { out0 with subPackets := st.subPackets, pktcount := st.pktcount,
                                  freed := st.freed, gsoSegsRecorded := segs,
                                  ignoreDf := s.ipfragok, transmitted := true }
          if st.has_data = true then
            match s2.asoc with
            | none => Except.error ()
            | some a =>
              let restart : Bool := a.established && decide (a.autoclose ≠ 0)
              Except.ok (0, sctp_packet_reset s2, { out1 with autocloseRestarted := restart })
          else
            Except.ok (0, sctp_packet_reset s2, out1)

/-- sctp_packet_transmit_chunk: append; on PMTU_FULL with no
COOKIE_ECHO in the packet, transmit the accumulated packet (a negative
return would be negated into chunk->skb->sk->sk_err) and, unless
one_packet, retry the append once on the drained packet. -/
def sctp_packet_transmit_chunk (s : St) (c : Chunk) (one_packet : Bool)
    (env : ApEnv) (tx : TxEnv) : Except Unit (sctp_xmit_t × St) :=
  match sctp_packet_append_chunk s c env with
  | Except.error e => Except.error e
  | Except.ok (v, s1) =>
    match v with
    | sctp_xmit_t.pmtuFull =>
      if s1.has_cookie_echo = false then
        match sctp_packet_transmit s1 tx with
        | Except.error e => Except.error e
        | Except.ok (err, s2, _) =>
          let s3 := if err < 0 then { s2 with sk_err := (-err).toNat } else s2
          if one_packet = false then
            sctp_packet_append_chunk s3 c env
          else
            Except.ok (sctp_xmit_t.pmtuFull, s3)
      else
        Except.ok (sctp_xmit_t.pmtuFull, s1)
    | _ => Except.ok (v, s1)

/-! Concrete fixtures used by witnesses and counterexamples. -/

/-- A control chunk of no special type with all bookkeeping fields at
rest. -/
def baseChunk : Chunk :=
  { cid := 0, ctype := ChunkType.otherCid, hdr_length := 16, skb_len := 16,
    auth_flag := false, need_frtx := false, msg_can_delay := true,
    msg_can_abandon := true, resent := false, sent_count := 0, sent_at := 0,
    rtt_in_progress := false, data_size := 0, has_asoc := true,
    tsn_assigned := false, ssn_assigned := false, transport_set := false }

/-- An established association with a wide-open peer window and Nagle
disabled. -/
def baseAssoc : Assoc :=
  { pathmtu := 1500, peer_rwnd := 100000, peer_sack_needed := true,
    peer_sack_generation := 1, peer_prsctp_capable := false,
    peer_last_sent_to_tp := false, rwnd := 100000, a_rwnd := 100000,
    outq_outstanding_bytes := 0, outq_out_qlen := 0, established := true,
    nodelay := true, sack_timer_pending := false, stats_osacks := 0,
    stats_opackets := 0, autoclose := 0 }

/-- A freshly reset packet on a transport with pathmtu 1500 and overhead
48 (IPv4-like 36-byte network header modelled away; 48 = 36 + 12), with
a large congestion window. -/
def baseSt : St :=
  { source_port := 1, destination_port := 2, vtag := 7, chunk_list := [],
    size := 48, overhead := 48, max_size := 65536, has_cookie_echo := false,
    has_sack := false, has_data := false, has_auth := false, ipfragok := false,
    auth := none, tp_pathmtu := 1500, tp_cwnd := 100000, tp_burst_limited := 0,
    tp_flight_size := 0, tp_rto_pending := false, tp_sack_generation := 1,
    asoc := some baseAssoc, sk_err := 0 }

/-- An append environment whose chunk factories fail (no bundling). -/
def apEnvNone : ApEnv := { mkAuth := none, mkSack := none, now := 1000 }

/-- A transmit environment where every allocation and the route succeed
and GSO is available. -/
def txEnvOk : TxEnv :=
  { canGso := true, headAllocOk := true, dstOk := true,
    subAllocOk := fun _ => true, groOk := fun _ => true, gsoMaxSegs := 100 }

/-- Running a sequence of public appends; a NULL dereference aborts the
sequence at the current state. -/
def runAppends : St → List (Chunk × ApEnv) → St
  | s, [] => s
  | s, (c, e) :: rest =>
    match sctp_packet_append_chunk s c e with
    | Except.ok (_, s2) => runAppends s2 rest
    | Except.error _ => s

/-- A chunk whose on-wire length field holds 65534, so that
SCTP_PAD4 rounds it to 65536, which the __u16 chunk_len truncates to 0. -/
def c65534 : Chunk := { baseChunk with cid := 1, hdr_length := 65534, skb_len := 65534 }

/-- A 116-byte DATA chunk carrying 100 bytes of user data. -/
def dChunk : Chunk :=
  { baseChunk with cid := 2, ctype := ChunkType.dataCid, hdr_length := 116,
                   skb_len := 116, data_size := 100 }

/-- A 16-byte SACK chunk offered directly to the public append. -/
def sChunk : Chunk := { baseChunk with cid := 3, ctype := ChunkType.sackCid }

/-- A control chunk of padded length 1600, larger than the whole PMTU. -/
def hugeChunk : Chunk := { baseChunk with cid := 4, hdr_length := 1600, skb_len := 1600 }

/-- A control chunk that fills the packet to 1480 of 1500 bytes. -/
def fillChunk : Chunk := { baseChunk with cid := 10, hdr_length := 1432, skb_len := 1432 }

/-- A DATA chunk of padded length 40. -/
def d40 : Chunk :=
  { baseChunk with cid := 11, ctype := ChunkType.dataCid, hdr_length := 40,
                   skb_len := 40, data_size := 24 }

/-- The base packet without segmentation offload: max_size equals the
pathmtu. -/
def noGsoSt : St := { baseSt with max_size := 1500 }

/-- The no-GSO packet filled to 1480 bytes by fillChunk. -/
def filledSt : St := runAppends noGsoSt [(fillChunk, apEnvNone)]

/-- Three 800-byte chunks awaiting a GSO emission: total accumulated
size 2448 against a pathmtu of 1500. -/
def c800a : Chunk := { baseChunk with cid := 5, hdr_length := 800, skb_len := 800 }

def c800b : Chunk := { baseChunk with cid := 6, hdr_length := 800, skb_len := 800 }

def c800c : Chunk := { baseChunk with cid := 7, hdr_length := 800, skb_len := 800 }

def gso3St : St := { baseSt with chunk_list := [c800a, c800b, c800c], size := 48 + 2400 }

/-- A transmit environment whose head skb allocation fails. -/
def txEnvNoAlloc : TxEnv := { txEnvOk with headAllocOk := false }

/-! ## Claim C5: the four ordered rules of sctp_packet_can_append_data -/

/-- The decision procedure exactly as the specification words it: rule A
(rwnd), rule B (cwnd with the fast-retransmit exception), the grouped
Nagle exemptions, then pack-or-defer. -/
def canAppendDataSpec (s : St) (a : Assoc) (c : Chunk) : sctp_xmit_t :=
  if c.data_size > a.peer_rwnd ∧ a.outq_outstanding_bytes > 0 then
    sctp_xmit_t.rwndFull
  else if c.need_frtx = false ∧ s.tp_flight_size ≥ s.tp_cwnd then
    sctp_xmit_t.rwndFull
  else if a.nodelay = true ∨ sctp_packet_empty s = false ∨
      a.outq_outstanding_bytes = 0 ∨ a.established = false then
    sctp_xmit_t.ok
  else if c.skb_len + a.outq_out_qlen >
      usub (usub (usub s.tp_pathmtu s.overhead) sizeof_sctp_data_chunk) 4 ∨
      c.msg_can_delay = false then
    sctp_xmit_t.ok
  else
    sctp_xmit_t.delay

/-- C5: sctp_packet_can_append_data decides exactly by the four ordered
rules of the specification: rwnd with the one-probe allowance, cwnd with
the fast-retransmit exception, the Nagle exemptions, and pack-or-defer. -/
theorem C5_can_append_data_rules (s : St) (a : Assoc) (c : Chunk) :
    sctp_packet_can_append_data s a c = canAppendDataSpec s a c := by
  unfold sctp_packet_can_append_data canAppendDataSpec
  dsimp only
  split_ifs <;> simp_all
  omega

/-! ## Claim C6: the accounting done by sctp_packet_append_data -/

/-- C6: admitting a DATA chunk of data size d grows flight_size by d,
grows outstanding_bytes by d, shrinks the peer rwnd view to
max(0, rwnd - d) (natural subtraction, equivalently rwnd - min d rwnd),
clears can_abandon unless the association is PR-SCTP capable, and
assigns a TSN and an SSN. -/
theorem C6_append_data_accounting (s : St) (a : Assoc) (c : Chunk) :
    (sctp_packet_append_data s a c).1.tp_flight_size = s.tp_flight_size + c.data_size
    ∧ (sctp_packet_append_data s a c).1.asoc = some { a with
        outq_outstanding_bytes := a.outq_outstanding_bytes + c.data_size,
        peer_rwnd := a.peer_rwnd - c.data_size }
    ∧ a.peer_rwnd - c.data_size = a.peer_rwnd - min c.data_size a.peer_rwnd
    ∧ (sctp_packet_append_data s a c).2.msg_can_abandon =
        (if a.peer_prsctp_capable = true then c.msg_can_abandon else false)
    ∧ (sctp_packet_append_data s a c).2.tsn_assigned = true
    ∧ (sctp_packet_append_data s a c).2.ssn_assigned = true := by
  unfold sctp_packet_append_data
  refine ⟨rfl, ?_, ?_, rfl, rfl, rfl⟩
  · simp only []
    congr 1
    rcases Nat.lt_or_ge c.data_size a.peer_rwnd with h | h
    · simp [h]
    · simp [Nat.not_lt.mpr h, Nat.sub_eq_zero_of_le h]
  · omega

/-! ## Claim C7: the empty-packet fragmentation rule of will_fit -/

/-- C7: whenever the padded chunk length would push the packet past the
pmtu, an empty packet, or a data-less packet with an AUTH-requiring
chunk, is admitted with verdict OK and ipfragok set; this branch runs
before every PMTU_FULL condition. -/
theorem C7_will_fit_empty_rule (s : St) (c : Chunk) (L : Nat)
    (hover : s.size + L > packetPmtu s)
    (hrule : sctp_packet_empty s = true ∨ (s.has_data = false ∧ c.auth_flag = true)) :
    sctp_packet_will_fit s c L = (sctp_xmit_t.ok, { s with ipfragok := true }) := by
  unfold sctp_packet_will_fit
  simp [hover, hrule]

/-- Witness for C7: an 1600-byte control chunk offered to the empty base
packet (pmtu 1500) is admitted with ipfragok set. -/
theorem C7_witness :
    baseSt.size + 1600 > packetPmtu baseSt
    ∧ sctp_packet_will_fit baseSt hugeChunk 1600 =
        (sctp_xmit_t.ok, { baseSt with ipfragok := true }) :=
  ⟨by decide, C7_will_fit_empty_rule baseSt hugeChunk 1600 (by decide) (Or.inl (by decide))⟩

/-! ## Claim C9: a chunkless transmit is a silent no-op -/

/-- C9: sctp_packet_transmit on an empty chunk_list returns 0 with the
state untouched and no observable output: no allocation, no free, no
emission, no reset. -/
theorem C9_empty_transmit (s : St) (env : TxEnv) (h : s.chunk_list = []) :
    sctp_packet_transmit s env = Except.ok (0, s, txOutNone) := by
  unfold sctp_packet_transmit
  simp [h]

/-- Witness for C9 at the empty base packet. -/
theorem C9_witness : sctp_packet_transmit baseSt txEnvOk = Except.ok (0, baseSt, txOutNone) :=
  C9_empty_transmit baseSt txEnvOk rfl

/-! ## Claim C10: the DATA-append path needs a non-NULL association -/

lemma will_fit_state_cases (s : St) (c : Chunk) (L : Nat) :
    (sctp_packet_will_fit s c L).2 = s ∨
    (sctp_packet_will_fit s c L).2 = { s with ipfragok := true } := by
  unfold sctp_packet_will_fit
  dsimp only
  split_ifs <;> simp

lemma will_fit_asoc (s : St) (c : Chunk) (L : Nat) :
    ((sctp_packet_will_fit s c L).2).asoc = s.asoc := by
  rcases will_fit_state_cases s c L with h | h <;> rw [h]

lemma raw_never_errors (s : St) (c : Chunk) (now : Nat) (h : s.asoc.isSome = true) :
    ∃ v s2, sctp_packet_append_chunk_raw s c now = Except.ok (v, s2) ∧
      s2.asoc.isSome = true := by
  unfold sctp_packet_append_chunk_raw
  dsimp only
  by_cases hv : (sctp_packet_will_fit s c (u16trunc (SCTP_PAD4 c.hdr_length))).1 ≠ sctp_xmit_t.ok
  · rw [if_pos hv]
    refine ⟨_, _, rfl, ?_⟩
    rw [will_fit_asoc]
    exact h
  · rw [if_neg hv]
    have hasoc : ((sctp_packet_will_fit s c (u16trunc (SCTP_PAD4 c.hdr_length))).2).asoc
        = s.asoc := will_fit_asoc s c _
    cases hc : c.ctype
    · obtain ⟨a, ha⟩ := Option.isSome_iff_exists.mp h
      rw [hasoc, ha]
      exact ⟨_, _, rfl, by simp [sctp_packet_append_data, append_tail]⟩
    · refine ⟨_, _, rfl, ?_⟩
      simp only [append_tail]
      rw [hasoc]
      obtain ⟨a, ha⟩ := Option.isSome_iff_exists.mp h
      rw [ha]
      dsimp only
      split <;> simp
    · refine ⟨_, _, rfl, ?_⟩
      simp only [append_tail]
      rw [hasoc]
      exact h
    · refine ⟨_, _, rfl, ?_⟩
      simp only [append_tail]
      rw [hasoc]
      exact h
    · refine ⟨_, _, rfl, ?_⟩
      simp only [append_tail]
      rw [hasoc]
      exact h

lemma bundle_auth_never_errors (s : St) (c : Chunk) (env : ApEnv)
    (h : s.asoc.isSome = true) :
    ∃ v s2, sctp_packet_bundle_auth s c env = Except.ok (v, s2) ∧
      s2.asoc.isSome = true := by
  unfold sctp_packet_bundle_auth
  obtain ⟨a, ha⟩ := Option.isSome_iff_exists.mp h
  rw [ha]
  split_ifs
  · exact ⟨_, _, rfl, h⟩
  · exact ⟨_, _, rfl, h⟩
  · cases env.mkAuth with
    | none => exact ⟨_, _, rfl, h⟩
    | some au => exact raw_never_errors s au env.now h

lemma bundle_sack_never_errors (s : St) (c : Chunk) (env : ApEnv)
    (h : s.asoc.isSome = true) :
    ∃ v s2, sctp_packet_bundle_sack s c env = Except.ok (v, s2) ∧
      s2.asoc.isSome = true := by
  unfold sctp_packet_bundle_sack
  split_ifs with hg
  · obtain ⟨a, ha⟩ := Option.isSome_iff_exists.mp h
    rw [ha]
    dsimp only
    by_cases ht : a.sack_timer_pending = true
    · rw [if_pos ht]
      by_cases hgen : s.tp_sack_generation ≠ a.peer_sack_generation
      · rw [if_pos hgen]
        exact ⟨_, _, rfl, h⟩
      · rw [if_neg hgen]
        cases hmk : env.mkSack with
        | none => exact ⟨_, _, rfl, by simp⟩
        | some sk =>
          obtain ⟨v, s2, hraw, hs2⟩ :=
            raw_never_errors { s with asoc := some { a with a_rwnd := a.rwnd } } sk env.now
              (by simp)
          dsimp only
          rw [hraw]
          dsimp only
          by_cases hv : v ≠ sctp_xmit_t.ok
          · rw [if_pos hv]
            exact ⟨_, _, rfl, hs2⟩
          · rw [if_neg hv]
            obtain ⟨a2, ha2⟩ := Option.isSome_iff_exists.mp hs2
            rw [ha2]
            exact ⟨_, _, rfl, by simp⟩
    · rw [if_neg ht]
      exact ⟨_, _, rfl, h⟩
  · exact ⟨_, _, rfl, h⟩

lemma append_tail_never_errors (s : St) (c : Chunk) (env : ApEnv)
    (h : s.asoc.isSome = true) :
    ∃ v s2, sctp_packet_append_chunk_tail s c env = Except.ok (v, s2) := by
  unfold sctp_packet_append_chunk_tail
  obtain ⟨v1, s1, h1, hs1⟩ := bundle_auth_never_errors s c env h
  rw [h1]
  dsimp only
  by_cases hv1 : v1 ≠ sctp_xmit_t.ok
  · rw [if_pos hv1]; exact ⟨_, _, rfl⟩
  · rw [if_neg hv1]
    obtain ⟨v2, s2, h2, hs2⟩ := bundle_sack_never_errors s1 c env hs1
    rw [h2]
    dsimp only
    by_cases hv2 : v2 ≠ sctp_xmit_t.ok
    · rw [if_pos hv2]; exact ⟨_, _, rfl⟩
    · rw [if_neg hv2]
      obtain ⟨v3, s3, h3, _⟩ := raw_never_errors s2 c env.now hs2
      exact ⟨v3, s3, h3⟩

/-- C10: the embedded DATA-append path of the public
sctp_packet_append_chunk dereferences transport->asoc
(sctp_packet_can_append_data and, en route, sctp_packet_bundle_sack),
so appending a DATA chunk requires a non-NULL association; under that
precondition no append ever reaches the NULL-dereference branch, while
sctp_packet_bundle_auth explicitly tolerates a missing association. -/
theorem C10_asoc_precondition (s : St) (c : Chunk) (env : ApEnv) :
    (s.asoc.isSome = true →
      ∃ v s2, sctp_packet_append_chunk s c env = Except.ok (v, s2))
    ∧ (s.asoc = none → sctp_chunk_is_data c = true →
        sctp_packet_append_chunk s c env = Except.error ())
    ∧ (s.asoc = none →
        sctp_packet_bundle_auth s c env = Except.ok (sctp_xmit_t.ok, s)) := by
  refine ⟨?_, ?_, ?_⟩
  · intro h
    unfold sctp_packet_append_chunk
    split_ifs with hd
    · obtain ⟨a, ha⟩ := Option.isSome_iff_exists.mp h
      rw [ha]
      dsimp only
      by_cases hv : sctp_packet_can_append_data s a c ≠ sctp_xmit_t.ok
      · rw [if_pos hv]; exact ⟨_, _, rfl⟩
      · rw [if_neg hv]; exact append_tail_never_errors s c env h
    · exact append_tail_never_errors s c env h
  · intro hnone hd
    unfold sctp_packet_append_chunk
    rw [if_pos hd, hnone]
  · intro hnone
    unfold sctp_packet_bundle_auth
    rw [hnone]

/-- Witness for C10: the base packet carries an association, so a DATA
append completes without hitting the NULL-dereference branch. -/
theorem C10_witness :
    baseSt.asoc.isSome = true
    ∧ (∃ v s2, sctp_packet_append_chunk baseSt dChunk apEnvNone = Except.ok (v, s2)) :=
  ⟨by decide, (C10_asoc_precondition baseSt dChunk apEnvNone).1 (by decide)⟩

/-! ## The raw-append case analysis shared by several invariants -/

lemma raw_spec (s : St) (c : Chunk) (now : Nat) (v : sctp_xmit_t) (s' : St)
    (h : sctp_packet_append_chunk_raw s c now = Except.ok (v, s')) :
    (v ≠ sctp_xmit_t.ok ∧ s'.size = s.size ∧ s'.chunk_list = s.chunk_list ∧
      s'.has_data = s.has_data ∧ s'.has_sack = s.has_sack ∧ s'.has_auth = s.has_auth ∧
      s'.overhead = s.overhead ∧ s'.sk_err = s.sk_err)
    ∨ (v = sctp_xmit_t.ok ∧ ∃ c2 : Chunk,
        s'.chunk_list = s.chunk_list ++ [c2] ∧ c2.ctype = c.ctype ∧
        c2.hdr_length = c.hdr_length ∧
        s'.size = s.size + u16trunc (SCTP_PAD4 c.hdr_length) ∧
        s'.overhead = s.overhead ∧ s'.sk_err = s.sk_err ∧
        s'.has_data = (if c.ctype = ChunkType.dataCid then true else s.has_data) ∧
        s'.has_sack = (if c.ctype = ChunkType.dataCid ∨ c.ctype = ChunkType.sackCid
                        then true else s.has_sack) ∧
        s'.has_auth = (if c.ctype = ChunkType.dataCid ∨ c.ctype = ChunkType.authCid
                        then true else s.has_auth)) := by
  unfold sctp_packet_append_chunk_raw at h
  dsimp only at h
  by_cases hv : (sctp_packet_will_fit s c (u16trunc (SCTP_PAD4 c.hdr_length))).1 ≠ sctp_xmit_t.ok
  · rw [if_pos hv] at h
    simp only [Except.ok.injEq, Prod.mk.injEq] at h
    obtain ⟨hv2, hs2⟩ := h
    subst hv2
    subst hs2
    left
    rcases will_fit_state_cases s c (u16trunc (SCTP_PAD4 c.hdr_length)) with hw | hw <;>
      rw [hw] <;> exact ⟨hv, rfl, rfl, rfl, rfl, rfl, rfl, rfl⟩
  · rw [if_neg hv] at h
    have hw := will_fit_state_cases s c (u16trunc (SCTP_PAD4 c.hdr_length))
    cases hc : c.ctype
    · rw [hc] at h
      rcases hw with hw | hw <;> rw [hw] at h
      · cases hsa : s.asoc with
        | none => rw [hsa] at h; exact absurd h (by simp)
        | some a =>
          rw [hsa] at h
          simp only [Except.ok.injEq, Prod.mk.injEq] at h
          obtain ⟨hv2, hs2⟩ := h
          subst hv2
          subst hs2
          right
          refine ⟨rfl, ⟨{ c with
              msg_can_abandon :=
                if a.peer_prsctp_capable = true then c.msg_can_abandon else false,
              tsn_assigned := true, ssn_assigned := true, sent_at := now,
              sent_count := c.sent_count + 1, transport_set := true },
              ?_, ?_, ?_, ?_, ?_, ?_, ?_, ?_, ?_⟩⟩ <;>
            simp [sctp_packet_append_data, append_tail, hc]
      · cases hsa : ({ s with ipfragok := true } : St).asoc with
        | none => rw [hsa] at h; exact absurd h (by simp)
        | some a =>
          rw [hsa] at h
          simp only [Except.ok.injEq, Prod.mk.injEq] at h
          obtain ⟨hv2, hs2⟩ := h
          subst hv2
          subst hs2
          right
          refine ⟨rfl, ⟨{ c with
              msg_can_abandon :=
                if a.peer_prsctp_capable = true then c.msg_can_abandon else false,
              tsn_assigned := true, ssn_assigned := true, sent_at := now,
              sent_count := c.sent_count + 1, transport_set := true },
              ?_, ?_, ?_, ?_, ?_, ?_, ?_, ?_, ?_⟩⟩ <;>
            simp [sctp_packet_append_data, append_tail, hc]
    all_goals (
      rw [hc] at h
      rcases hw with hw | hw <;> rw [hw] at h <;>
        (simp only [Except.ok.injEq, Prod.mk.injEq] at h
         obtain ⟨hv2, hs2⟩ := h
         subst hv2
         subst hs2
         right
         refine ⟨rfl, ⟨{ c with transport_set := true },
           ?_, ?_, ?_, ?_, ?_, ?_, ?_, ?_, ?_⟩⟩ <;>
           simp [append_tail, hc]))

/-- The packet-core fields that asoc-only updates leave untouched. -/
def pktSame (t u : St) : Prop :=
  t.size = u.size ∧ t.overhead = u.overhead ∧ t.chunk_list = u.chunk_list ∧
  t.has_data = u.has_data ∧ t.has_sack = u.has_sack ∧ t.has_auth = u.has_auth ∧
  t.sk_err = u.sk_err

lemma pktSame_refl (t : St) : pktSame t t := ⟨rfl, rfl, rfl, rfl, rfl, rfl, rfl⟩

lemma bundle_auth_cases (s : St) (c : Chunk) (env : ApEnv) (v : sctp_xmit_t) (s' : St)
    (h : sctp_packet_bundle_auth s c env = Except.ok (v, s')) :
    (v = sctp_xmit_t.ok ∧ s' = s) ∨
    (∃ au, env.mkAuth = some au ∧ s.has_auth = false ∧
      sctp_packet_append_chunk_raw s au env.now = Except.ok (v, s')) := by
  unfold sctp_packet_bundle_auth at h
  cases hsa : s.asoc with
  | none =>
    rw [hsa] at h
    simp only [Except.ok.injEq, Prod.mk.injEq] at h
    exact Or.inl ⟨h.1.symm, h.2.symm⟩
  | some a =>
    rw [hsa] at h
    dsimp only at h
    split_ifs at h with h1 h2
    · simp only [Except.ok.injEq, Prod.mk.injEq] at h
      exact Or.inl ⟨h.1.symm, h.2.symm⟩
    · simp only [Except.ok.injEq, Prod.mk.injEq] at h
      exact Or.inl ⟨h.1.symm, h.2.symm⟩
    · cases hmk : env.mkAuth with
      | none =>
        rw [hmk] at h
        simp only [Except.ok.injEq, Prod.mk.injEq] at h
        exact Or.inl ⟨h.1.symm, h.2.symm⟩
      | some au =>
        rw [hmk] at h
        right
        refine ⟨au, rfl, ?_, h⟩
        by_contra hha
        exact h1 (Or.inr (by revert hha; cases s.has_auth <;> simp))

lemma bundle_sack_cases (s : St) (c : Chunk) (env : ApEnv) (v : sctp_xmit_t) (s' : St)
    (h : sctp_packet_bundle_sack s c env = Except.ok (v, s')) :
    (v = sctp_xmit_t.ok ∧ pktSame s' s) ∨
    (∃ sk s1 s2, env.mkSack = some sk ∧ pktSame s1 s ∧ s.has_sack = false ∧
      sctp_packet_append_chunk_raw s1 sk env.now = Except.ok (v, s2) ∧ pktSame s' s2) := by
  unfold sctp_packet_bundle_sack at h
  split_ifs at h with hg
  · cases hsa : s.asoc with
    | none => rw [hsa] at h; exact absurd h (by simp)
    | some a =>
      rw [hsa] at h
      dsimp only at h
      split_ifs at h with ht hgen
      · simp only [Except.ok.injEq, Prod.mk.injEq] at h
        exact Or.inl ⟨h.1.symm, h.2 ▸ pktSame_refl s'⟩
      · cases hmk : env.mkSack with
        | none =>
          rw [hmk] at h
          simp only [Except.ok.injEq, Prod.mk.injEq] at h
          refine Or.inl ⟨h.1.symm, ?_⟩
          rw [← h.2]
          exact ⟨rfl, rfl, rfl, rfl, rfl, rfl, rfl⟩
        | some sk =>
          rw [hmk] at h
          dsimp only at h
          right
          cases hraw : sctp_packet_append_chunk_raw
              { s with asoc := some { a with a_rwnd := a.rwnd } } sk env.now with
          | error e => rw [hraw] at h; exact absurd h (by simp)
          | ok p =>
            rw [hraw] at h
            dsimp only at h
            refine ⟨sk, { s with asoc := some { a with a_rwnd := a.rwnd } }, p.2, rfl,
              ⟨rfl, rfl, rfl, rfl, rfl, rfl, rfl⟩, hg.2.1, ?_, ?_⟩
            · split_ifs at h with hvok
              · simp only [Except.ok.injEq, Prod.mk.injEq] at h
                rw [← h.1]
                exact hraw
              · simp only [Except.ok.injEq, Prod.mk.injEq] at h
                rw [← h.1]
                have hpo : p.1 = sctp_xmit_t.ok := not_ne_iff.mp hvok
                rw [← hpo]
                exact hraw
            · split_ifs at h with hvok
              · simp only [Except.ok.injEq, Prod.mk.injEq] at h
                rw [← h.2]
                exact pktSame_refl _
              · simp only [Except.ok.injEq, Prod.mk.injEq] at h
                rw [← h.2]
                exact ⟨rfl, rfl, rfl, rfl, rfl, rfl, rfl⟩
      · simp only [Except.ok.injEq, Prod.mk.injEq] at h
        exact Or.inl ⟨h.1.symm, h.2 ▸ pktSame_refl s'⟩
  · simp only [Except.ok.injEq, Prod.mk.injEq] at h
    exact Or.inl ⟨h.1.symm, h.2 ▸ pktSame_refl s'⟩

lemma append_chunk_cases (s : St) (c : Chunk) (env : ApEnv) (v : sctp_xmit_t) (s' : St)
    (h : sctp_packet_append_chunk s c env = Except.ok (v, s')) :
    s' = s ∨ sctp_packet_append_chunk_tail s c env = Except.ok (v, s') := by
  unfold sctp_packet_append_chunk at h
  split_ifs at h with hd
  · cases hsa : s.asoc with
    | none => rw [hsa] at h; exact absurd h (by simp)
    | some a =>
      rw [hsa] at h
      dsimp only at h
      split_ifs at h with hv
      · simp only [Except.ok.injEq, Prod.mk.injEq] at h
        exact Or.inl h.2.symm
      · exact Or.inr h
  · exact Or.inr h

lemma append_tail_cases (s : St) (c : Chunk) (env : ApEnv) (v : sctp_xmit_t) (s' : St)
    (h : sctp_packet_append_chunk_tail s c env = Except.ok (v, s')) :
    ∃ v1 s1, sctp_packet_bundle_auth s c env = Except.ok (v1, s1) ∧
      ((v1 ≠ sctp_xmit_t.ok ∧ v = v1 ∧ s' = s1) ∨
       (v1 = sctp_xmit_t.ok ∧ ∃ v2 s2,
         sctp_packet_bundle_sack s1 c env = Except.ok (v2, s2) ∧
         ((v2 ≠ sctp_xmit_t.ok ∧ v = v2 ∧ s' = s2) ∨
          (v2 = sctp_xmit_t.ok ∧
            sctp_packet_append_chunk_raw s2 c env.now = Except.ok (v, s'))))) := by
  unfold sctp_packet_append_chunk_tail at h
  cases h1 : sctp_packet_bundle_auth s c env with
  | error e => rw [h1] at h; exact absurd h (by simp)
  | ok p1 =>
    rw [h1] at h
    dsimp only at h
    refine ⟨p1.1, p1.2, rfl, ?_⟩
    split_ifs at h with hv1
    · simp only [Except.ok.injEq, Prod.mk.injEq] at h
      exact Or.inl ⟨hv1, h.1.symm, h.2.symm⟩
    · push_neg at hv1
      refine Or.inr ⟨hv1, ?_⟩
      cases h2 : sctp_packet_bundle_sack p1.2 c env with
      | error e => rw [h2] at h; exact absurd h (by simp)
      | ok p2 =>
        rw [h2] at h
        dsimp only at h
        refine ⟨p2.1, p2.2, rfl, ?_⟩
        split_ifs at h with hv2
        · simp only [Except.ok.injEq, Prod.mk.injEq] at h
          exact Or.inl ⟨hv2, h.1.symm, h.2.symm⟩
        · push_neg at hv2
          exact Or.inr ⟨hv2, h⟩

/-! ## Claim C1: the running-size invariant -/

/-- The size bookkeeping the code actually maintains: overhead plus the
sum of padded lengths truncated to __u16, exactly as the raw append
accumulates them. -/
def sizeInvU16 (s : St) : Prop :=
  s.size = s.overhead +
    (s.chunk_list.map (fun x => u16trunc (SCTP_PAD4 x.hdr_length))).sum

/-- The claim's formula: overhead plus the sum of mathematically padded
raw lengths. -/
def sizeClaimMath (s : St) : Prop :=
  s.size = s.overhead + (s.chunk_list.map (fun x => SCTP_PAD4 x.hdr_length)).sum

lemma raw_pres_size (s : St) (c : Chunk) (now : Nat) (v : sctp_xmit_t) (s' : St)
    (h : sctp_packet_append_chunk_raw s c now = Except.ok (v, s'))
    (hi : sizeInvU16 s) : sizeInvU16 s' := by
  rcases raw_spec s c now v s' h with
    ⟨_, hsz, hl, _, _, _, hov, _⟩ | ⟨_, c2, hl, _, hhdr, hsz, hov, _, _, _, _⟩
  · unfold sizeInvU16 at *
    rw [hsz, hl, hov]
    exact hi
  · unfold sizeInvU16 at *
    rw [hsz, hl, hov, List.map_append, List.sum_append]
    simp only [List.map_cons, List.map_nil, List.sum_cons, List.sum_nil, hhdr]
    omega

lemma pktSame_pres_size (t u : St) (hp : pktSame t u) (hi : sizeInvU16 u) :
    sizeInvU16 t := by
  unfold sizeInvU16 at *
  rw [hp.1, hp.2.1, hp.2.2.1]
  exact hi

lemma bundle_auth_pres_size (s : St) (c : Chunk) (env : ApEnv) (v : sctp_xmit_t) (s' : St)
    (h : sctp_packet_bundle_auth s c env = Except.ok (v, s'))
    (hi : sizeInvU16 s) : sizeInvU16 s' := by
  rcases bundle_auth_cases s c env v s' h with ⟨_, rfl⟩ | ⟨au, _, _, hraw⟩
  · exact hi
  · exact raw_pres_size s au env.now v s' hraw hi

lemma bundle_sack_pres_size (s : St) (c : Chunk) (env : ApEnv) (v : sctp_xmit_t) (s' : St)
    (h : sctp_packet_bundle_sack s c env = Except.ok (v, s'))
    (hi : sizeInvU16 s) : sizeInvU16 s' := by
  rcases bundle_sack_cases s c env v s' h with ⟨_, hp⟩ | ⟨sk, s1, s2, _, hp1, _, hraw, hp2⟩
  · exact pktSame_pres_size s' s hp hi
  · exact pktSame_pres_size s' s2 hp2
      (raw_pres_size s1 sk env.now v s2 hraw (pktSame_pres_size s1 s hp1 hi))

lemma append_chunk_pres_size (s : St) (c : Chunk) (env : ApEnv) (v : sctp_xmit_t) (s' : St)
    (h : sctp_packet_append_chunk s c env = Except.ok (v, s'))
    (hi : sizeInvU16 s) : sizeInvU16 s' := by
  rcases append_chunk_cases s c env v s' h with rfl | htail
  · exact hi
  · obtain ⟨v1, s1, h1, hrest⟩ := append_tail_cases s c env v s' htail
    have hi1 := bundle_auth_pres_size s c env v1 s1 h1 hi
    rcases hrest with ⟨_, _, rfl⟩ | ⟨_, v2, s2, h2, hrest2⟩
    · exact hi1
    · have hi2 := bundle_sack_pres_size s1 c env v2 s2 h2 hi1
      rcases hrest2 with ⟨_, _, rfl⟩ | ⟨_, hraw⟩
      · exact hi2
      · exact raw_pres_size s2 c env.now v s' hraw hi2

lemma runAppends_pres_size (ops : List (Chunk × ApEnv)) (s : St) (hi : sizeInvU16 s) :
    sizeInvU16 (runAppends s ops) := by
  induction ops generalizing s with
  | nil => exact hi
  | cons p rest ih =>
    unfold runAppends
    cases happ : sctp_packet_append_chunk s p.1 p.2 with
    | error e => exact hi
    | ok q => exact ih q.2 (append_chunk_pres_size s p.1 p.2 q.1 q.2 happ hi)

/-- C1 counterexample: a chunk whose raw length field is 65534 pads to
65536, which the declared __u16 chunk_len truncates to 0, so the packet
size stays at the bare overhead while the claim's formula demands
overhead + 65536. -/
theorem C1_counterexample :
    ¬ sizeClaimMath (runAppends (sctp_packet_reset baseSt) [(c65534, apEnvNone)]) := by
  unfold sizeClaimMath
  decide

/-- C1 (amended): starting from sctp_packet_init or from a reset of a
drained packet, every append sequence keeps size equal to overhead plus
the sum of the 4-byte-padded chunk lengths each truncated to __u16
(identical to the claim whenever every raw length is at most 65532). -/
theorem C1_size_invariant (s : St) (ops : List (Chunk × ApEnv))
    (h : s.chunk_list = []) :
    sizeInvU16 (runAppends (sctp_packet_reset s) ops) := by
  apply runAppends_pres_size
  unfold sizeInvU16 sctp_packet_reset
  simp [h]

/-- Witness for the amended C1 at a concrete append sequence, including
the very chunk that breaks the unamended claim. -/
theorem C1_witness :
    baseSt.chunk_list = [] ∧
    sizeInvU16 (runAppends (sctp_packet_reset baseSt)
      [(c65534, apEnvNone), (dChunk, apEnvNone)]) :=
  ⟨rfl, C1_size_invariant baseSt [(c65534, apEnvNone), (dChunk, apEnvNone)] rfl⟩

/-! ## Claim C2: no SACK or AUTH after DATA -/

/-- No SACK or AUTH chunk occurs anywhere after a DATA chunk. -/
def noSackAuthAfterData (l : List Chunk) : Prop :=
  l.Pairwise (fun x y => x.ctype = ChunkType.dataCid →
    y.ctype ≠ ChunkType.sackCid ∧ y.ctype ≠ ChunkType.authCid)

/-- Well-formed chunk factories: sctp_make_auth builds AUTH chunks and
sctp_make_sack builds SACK chunks. -/
def ApEnvWF (e : ApEnv) : Prop :=
  (∀ au, e.mkAuth = some au → au.ctype = ChunkType.authCid) ∧
  (∀ sk, e.mkSack = some sk → sk.ctype = ChunkType.sackCid)

/-- The inductive invariant behind the amended C2: once DATA is in, the
has_sack and has_auth latches are set; while no DATA is in, the list has
no DATA chunk; and the order property itself. -/
def C2Inv (s : St) : Prop :=
  (s.has_data = true → s.has_sack = true ∧ s.has_auth = true) ∧
  (s.has_data = false → ∀ x ∈ s.chunk_list, x.ctype ≠ ChunkType.dataCid) ∧
  noSackAuthAfterData s.chunk_list

lemma noSackAuthAfterData_append (l : List Chunk) (x : Chunk)
    (hp : noSackAuthAfterData l)
    (hx : ∀ a ∈ l, a.ctype = ChunkType.dataCid →
      x.ctype ≠ ChunkType.sackCid ∧ x.ctype ≠ ChunkType.authCid) :
    noSackAuthAfterData (l ++ [x]) := by
  unfold noSackAuthAfterData at *
  rw [List.pairwise_append]
  exact ⟨hp, List.pairwise_singleton _ _, fun a ha b hb => by
    rw [List.mem_singleton] at hb
    subst hb
    exact hx a ha⟩

lemma raw_pres_C2 (s : St) (c : Chunk) (now : Nat) (v : sctp_xmit_t) (s' : St)
    (h : sctp_packet_append_chunk_raw s c now = Except.ok (v, s'))
    (hcs : c.ctype = ChunkType.sackCid → s.has_sack = false)
    (hca : c.ctype = ChunkType.authCid → s.has_auth = false)
    (hi : C2Inv s) : C2Inv s' := by
  obtain ⟨hi1, hi2, hi3⟩ := hi
  rcases raw_spec s c now v s' h with
    ⟨_, _, hl, hhd, hhs, hha, _, _⟩ | ⟨_, c2, hl, hct, _, _, _, _, hhd, hhs, hha⟩
  · exact ⟨by rw [hhd, hhs, hha]; exact hi1, by rw [hhd, hl]; exact hi2,
      by rw [hl]; exact hi3⟩
  · cases hcc : c.ctype
    · -- DATA: all three latches set; nothing after it yet.
      refine ⟨?_, ?_, ?_⟩
      · intro _
        rw [hhs, hha]
        simp [hcc]
      · intro hd'
        rw [hhd] at hd'
        simp [hcc] at hd'
      · rw [hl]
        refine noSackAuthAfterData_append _ _ hi3 ?_
        intro a _ _
        rw [hct, hcc]
        exact ⟨by simp, by simp⟩
    · -- SACK: only reachable while has_sack is clear, hence no DATA yet.
      have hsf : s.has_sack = false := hcs hcc
      have hdf : s.has_data = false := by
        cases hhdv : s.has_data
        · rfl
        · exact absurd (hi1 hhdv).1 (by rw [hsf]; simp)
      have hnod := hi2 hdf
      refine ⟨?_, ?_, ?_⟩
      · intro hd'
        rw [hhd] at hd'
        simp [hcc, hdf] at hd'
      · intro _
        rw [hl]
        intro x hx
        rcases List.mem_append.mp hx with hx | hx
        · exact hnod x hx
        · rw [List.mem_singleton] at hx
          subst hx
          rw [hct, hcc]
          simp
      · rw [hl]
        refine noSackAuthAfterData_append _ _ hi3 ?_
        intro a ha had
        exact absurd had (hnod a ha)
    · -- AUTH: only reachable while has_auth is clear, hence no DATA yet.
      have haf : s.has_auth = false := hca hcc
      have hdf : s.has_data = false := by
        cases hhdv : s.has_data
        · rfl
        · exact absurd (hi1 hhdv).2 (by rw [haf]; simp)
      have hnod := hi2 hdf
      refine ⟨?_, ?_, ?_⟩
      · intro hd'
        rw [hhd] at hd'
        simp [hcc, hdf] at hd'
      · intro _
        rw [hl]
        intro x hx
        rcases List.mem_append.mp hx with hx | hx
        · exact hnod x hx
        · rw [List.mem_singleton] at hx
          subst hx
          rw [hct, hcc]
          simp
      · rw [hl]
        refine noSackAuthAfterData_append _ _ hi3 ?_
        intro a ha had
        exact absurd had (hnod a ha)
    · -- COOKIE_ECHO: flags of interest unchanged, chunk is neither
      -- SACK nor AUTH nor DATA.
      refine ⟨?_, ?_, ?_⟩
      · intro hd'
        rw [hhd] at hd'
        simp only [hcc] at hd'
        rw [hhs, hha]
        simp only [hcc]
        simp at hd' ⊢
        exact hi1 hd'
      · intro hd'
        rw [hhd] at hd'
        simp only [hcc] at hd'
        rw [hl]
        intro x hx
        rcases List.mem_append.mp hx with hx | hx
        · exact hi2 (by simpa using hd') x hx
        · rw [List.mem_singleton] at hx
          subst hx
          rw [hct, hcc]
          simp
      · rw [hl]
        refine noSackAuthAfterData_append _ _ hi3 ?_
        intro a _ _
        rw [hct, hcc]
        exact ⟨by simp, by simp⟩
    · -- other control chunks: same shape as COOKIE_ECHO.
      refine ⟨?_, ?_, ?_⟩
      · intro hd'
        rw [hhd] at hd'
        simp only [hcc] at hd'
        rw [hhs, hha]
        simp only [hcc]
        simp at hd' ⊢
        exact hi1 hd'
      · intro hd'
        rw [hhd] at hd'
        simp only [hcc] at hd'
        rw [hl]
        intro x hx
        rcases List.mem_append.mp hx with hx | hx
        · exact hi2 (by simpa using hd') x hx
        · rw [List.mem_singleton] at hx
          subst hx
          rw [hct, hcc]
          simp
      · rw [hl]
        refine noSackAuthAfterData_append _ _ hi3 ?_
        intro a _ _
        rw [hct, hcc]
        exact ⟨by simp, by simp⟩

lemma pktSame_pres_C2 (t u : St) (hp : pktSame t u) (hi : C2Inv u) : C2Inv t := by
  obtain ⟨h1, h2, h3, h4, h5, h6, h7⟩ := hp
  unfold C2Inv at *
  rw [h3, h4, h5, h6]
  exact hi

lemma bundle_auth_pres_C2 (s : St) (c : Chunk) (env : ApEnv) (v : sctp_xmit_t) (s' : St)
    (h : sctp_packet_bundle_auth s c env = Except.ok (v, s'))
    (hwf : ApEnvWF env) (hi : C2Inv s) : C2Inv s' := by
  rcases bundle_auth_cases s c env v s' h with ⟨_, rfl⟩ | ⟨au, hmk, hhaf, hraw⟩
  · exact hi
  · have hat := hwf.1 au hmk
    exact raw_pres_C2 s au env.now v s' hraw
      (fun hx => absurd (hat ▸ hx) (by simp)) (fun _ => hhaf) hi

lemma bundle_sack_pres_C2 (s : St) (c : Chunk) (env : ApEnv) (v : sctp_xmit_t) (s' : St)
    (h : sctp_packet_bundle_sack s c env = Except.ok (v, s'))
    (hwf : ApEnvWF env) (hi : C2Inv s) : C2Inv s' := by
  rcases bundle_sack_cases s c env v s' h with ⟨_, hp⟩ | ⟨sk, s1, s2, hmk, hp1, hsf, hraw, hp2⟩
  · exact pktSame_pres_C2 s' s hp hi
  · have hst := hwf.2 sk hmk
    refine pktSame_pres_C2 s' s2 hp2 (raw_pres_C2 s1 sk env.now v s2 hraw ?_ ?_
      (pktSame_pres_C2 s1 s hp1 hi))
    · intro _
      rw [hp1.2.2.2.2.1]
      exact hsf
    · intro hx
      exact absurd (hst ▸ hx) (by simp)

lemma append_chunk_pres_C2 (s : St) (c : Chunk) (env : ApEnv) (v : sctp_xmit_t) (s' : St)
    (h : sctp_packet_append_chunk s c env = Except.ok (v, s'))
    (hcns : c.ctype ≠ ChunkType.sackCid) (hcna : c.ctype ≠ ChunkType.authCid)
    (hwf : ApEnvWF env) (hi : C2Inv s) : C2Inv s' := by
  rcases append_chunk_cases s c env v s' h with rfl | htail
  · exact hi
  · obtain ⟨v1, s1, h1, hrest⟩ := append_tail_cases s c env v s' htail
    have hi1 := bundle_auth_pres_C2 s c env v1 s1 h1 hwf hi
    rcases hrest with ⟨_, _, rfl⟩ | ⟨_, v2, s2, h2, hrest2⟩
    · exact hi1
    · have hi2 := bundle_sack_pres_C2 s1 c env v2 s2 h2 hwf hi1
      rcases hrest2 with ⟨_, _, rfl⟩ | ⟨_, hraw⟩
      · exact hi2
      · exact raw_pres_C2 s2 c env.now v s' hraw
          (fun hx => absurd hx hcns) (fun hx => absurd hx hcna) hi2

lemma runAppends_pres_C2 (ops : List (Chunk × ApEnv)) (s : St)
    (hops : ∀ p ∈ ops, p.1.ctype ≠ ChunkType.sackCid ∧
      p.1.ctype ≠ ChunkType.authCid ∧ ApEnvWF p.2)
    (hi : C2Inv s) : C2Inv (runAppends s ops) := by
  induction ops generalizing s with
  | nil => exact hi
  | cons p rest ih =>
    unfold runAppends
    cases happ : sctp_packet_append_chunk s p.1 p.2 with
    | error e => exact hi
    | ok q =>
      obtain ⟨hs, ha, hwf⟩ := hops p (List.mem_cons_self p rest)
      exact ih q.2 (fun x hx => hops x (List.mem_cons_of_mem p hx))
        (append_chunk_pres_C2 s p.1 p.2 q.1 q.2 happ hs ha hwf hi)

/-- C2 counterexample: a DATA chunk admitted into the fresh base packet
and then a SACK chunk offered directly to sctp_packet_append_chunk is
admitted too (sctp_packet_will_fit only rejects a control chunk after
DATA when the packet already overflows the pmtu), leaving chunk_list
with a SACK positioned after the DATA. -/
theorem C2_counterexample :
    ¬ noSackAuthAfterData
      (runAppends (sctp_packet_reset baseSt)
        [(dChunk, apEnvNone), (sChunk, apEnvNone)]).chunk_list := by
  unfold noSackAuthAfterData
  decide

/-- C2 (amended): the has_data latch stops the bundlers, so for every
append sequence in which SACK and AUTH chunks enter only through the
bundlers (every directly offered chunk is neither SACK nor AUTH, and the
chunk factories are well-typed), the packet never holds a SACK or AUTH
chunk after a DATA chunk. -/
theorem C2_no_sack_auth_after_data (s : St) (ops : List (Chunk × ApEnv))
    (h : s.chunk_list = [])
    (hops : ∀ p ∈ ops, p.1.ctype ≠ ChunkType.sackCid ∧
      p.1.ctype ≠ ChunkType.authCid ∧ ApEnvWF p.2) :
    noSackAuthAfterData (runAppends (sctp_packet_reset s) ops).chunk_list := by
  refine (runAppends_pres_C2 ops (sctp_packet_reset s) hops ?_).2.2
  unfold C2Inv sctp_packet_reset noSackAuthAfterData
  simp [h]

/-- Witness for the amended C2: DATA then COOKIE_ECHO through the public
append keeps the order property. -/
theorem C2_witness :
    baseSt.chunk_list = [] ∧
    noSackAuthAfterData (runAppends (sctp_packet_reset baseSt)
      [(dChunk, apEnvNone), (fillChunk, apEnvNone)]).chunk_list :=
  ⟨rfl, C2_no_sack_auth_after_data baseSt [(dChunk, apEnvNone), (fillChunk, apEnvNone)]
    rfl (by unfold ApEnvWF; decide)⟩

/-! ## Claim C3: fatal emitter failures and the socket error slot -/

lemma raw_sk_err (s : St) (c : Chunk) (now : Nat) (v : sctp_xmit_t) (s' : St)
    (h : sctp_packet_append_chunk_raw s c now = Except.ok (v, s')) :
    s'.sk_err = s.sk_err := by
  rcases raw_spec s c now v s' h with
    ⟨_, _, _, _, _, _, _, hsk⟩ | ⟨_, _, _, _, _, _, _, hsk, _, _, _⟩ <;> exact hsk

lemma append_chunk_sk_err (s : St) (c : Chunk) (env : ApEnv) (v : sctp_xmit_t) (s' : St)
    (h : sctp_packet_append_chunk s c env = Except.ok (v, s')) :
    s'.sk_err = s.sk_err := by
  rcases append_chunk_cases s c env v s' h with rfl | htail
  · rfl
  · obtain ⟨v1, s1, h1, hrest⟩ := append_tail_cases s c env v s' htail
    have h1sk : s1.sk_err = s.sk_err := by
      rcases bundle_auth_cases s c env v1 s1 h1 with ⟨_, rfl⟩ | ⟨au, _, _, hraw⟩
      · rfl
      · exact raw_sk_err s au env.now v1 s1 hraw
    rcases hrest with ⟨_, _, rfl⟩ | ⟨_, v2, s2, h2, hrest2⟩
    · exact h1sk
    · have h2sk : s2.sk_err = s1.sk_err := by
        rcases bundle_sack_cases s1 c env v2 s2 h2 with ⟨_, hp⟩ | ⟨sk, t1, t2, _, hp1, _, hraw, hp2⟩
        · exact hp.2.2.2.2.2.2
        · rw [hp2.2.2.2.2.2.2, raw_sk_err t1 sk env.now v2 t2 hraw, hp1.2.2.2.2.2.2]
      rcases hrest2 with ⟨_, _, rfl⟩ | ⟨_, hraw⟩
      · rw [h2sk, h1sk]
      · rw [raw_sk_err s2 c env.now v s' hraw, h2sk, h1sk]

lemma transmit_ok_spec (s : St) (env : TxEnv) (e : Int) (s2 : St) (o : TxOut)
    (h : sctp_packet_transmit s env = Except.ok (e, s2, o)) :
    e = 0 ∧ s2.sk_err = s.sk_err ∧ (s.chunk_list ≠ [] → s2.size = s2.overhead) := by
  unfold sctp_packet_transmit tx_err tx_writeback sctp_packet_reset at h
  dsimp only at h
  repeat' split at h
  all_goals first
    | exact Except.noConfusion h
    | (simp only [Except.ok.injEq, Prod.mk.injEq] at h
       obtain ⟨he, hs2, ho⟩ := h
       subst he
       subst hs2
       refine ⟨rfl, rfl, fun hx => ?_⟩
       first
         | rfl
         | exact absurd (by assumption) hx)

lemma transmit_chunk_sk_err (s : St) (c : Chunk) (one : Bool) (env : ApEnv) (tx : TxEnv)
    (v : sctp_xmit_t) (s' : St)
    (h : sctp_packet_transmit_chunk s c one env tx = Except.ok (v, s')) :
    s'.sk_err = s.sk_err := by
  unfold sctp_packet_transmit_chunk at h
  cases happ : sctp_packet_append_chunk s c env with
  | error e => rw [happ] at h; exact absurd h (by simp)
  | ok p =>
    obtain ⟨pv, ps⟩ := p
    rw [happ] at h
    dsimp only at h
    have hps : ps.sk_err = s.sk_err := append_chunk_sk_err s c env pv ps happ
    cases pv with
    | pmtuFull =>
      by_cases hce : ps.has_cookie_echo = false
      · rw [if_pos hce] at h
        cases htx : sctp_packet_transmit ps tx with
        | error e => rw [htx] at h; exact absurd h (by simp)
        | ok q =>
          obtain ⟨e, q2⟩ := q
          obtain ⟨s2, o⟩ := q2
          rw [htx] at h
          dsimp only at h
          obtain ⟨he0, hsk, _⟩ := transmit_ok_spec ps tx e s2 o htx
          subst he0
          have hne : ¬ ((0 : Int) < 0) := by omega
          rw [if_neg hne] at h
          by_cases hone : one = false
          · rw [if_pos hone] at h
            rw [append_chunk_sk_err s2 c env v s' h, hsk, hps]
          · rw [if_neg hone] at h
            simp only [Except.ok.injEq, Prod.mk.injEq] at h
            rw [← h.2, hsk, hps]
      · rw [if_neg hce] at h
        simp only [Except.ok.injEq, Prod.mk.injEq] at h
        rw [← h.2, hps]
    | ok =>
      simp only [Except.ok.injEq, Prod.mk.injEq] at h
      rw [← h.2, hps]
    | rwndFull =>
      simp only [Except.ok.injEq, Prod.mk.injEq] at h
      rw [← h.2, hps]
    | delay =>
      simp only [Except.ok.injEq, Prod.mk.injEq] at h
      rw [← h.2, hps]

/-- C3 counterexample: the head allocation fails on the filled no-GSO
packet, a genuinely fatal failure (nothing transmitted, the control
chunk freed), yet sctp_packet_transmit returns 0 - not a negative
value - and the socket error slot after the full
sctp_packet_transmit_chunk flush path is still 0. -/
theorem C3_counterexample :
    sctp_packet_transmit filledSt txEnvNoAlloc =
      Except.ok (0, sctp_packet_reset { filledSt with chunk_list := [] },
        { txOutNone with freed := [10] })
    ∧ ¬ ((0 : Int) < 0)
    ∧ (sctp_packet_transmit_chunk filledSt d40 false apEnvNone txEnvNoAlloc).toOption.map
        (fun p => p.2.sk_err) = some 0 :=
  ⟨rfl, by omega, rfl⟩

/-- C3 (amended): fatal emitter failures are absorbed: the local err of
sctp_packet_transmit is initialized to 0 and never assigned (the
-EHOSTUNREACH store is commented out), so every completed call returns
0; consequently the negated-error store into chunk->skb->sk->sk_err in
sctp_packet_transmit_chunk is dead and the socket error slot is never
modified.  Failures are still never reported through the verdict
enumeration. -/
theorem C3_errors_absorbed :
    (∀ (s : St) (env : TxEnv) (e : Int) (s2 : St) (o : TxOut),
      sctp_packet_transmit s env = Except.ok (e, s2, o) → e = 0 ∧ s2.sk_err = s.sk_err)
    ∧ (∀ (s : St) (c : Chunk) (one : Bool) (env : ApEnv) (tx : TxEnv)
        (v : sctp_xmit_t) (s' : St),
        sctp_packet_transmit_chunk s c one env tx = Except.ok (v, s') →
          s'.sk_err = s.sk_err) :=
  ⟨fun s env e s2 o h => ⟨(transmit_ok_spec s env e s2 o h).1,
      (transmit_ok_spec s env e s2 o h).2.1⟩,
   fun s c one env tx v s' h => transmit_chunk_sk_err s c one env tx v s' h⟩

/-- Witness for the amended C3 at the failing-allocation input. -/
theorem C3_witness :
    (0 : Int) = 0 ∧
      (sctp_packet_reset { filledSt with chunk_list := [] }).sk_err = filledSt.sk_err :=
  C3_errors_absorbed.1 filledSt txEnvNoAlloc 0
    (sctp_packet_reset { filledSt with chunk_list := [] })
    { txOutNone with freed := [10] } rfl

/-! ## Claim C4: the flush-and-retry driver -/

/-- C4: sctp_packet_transmit_chunk propagates OK, RWND_FULL and DELAY
verdicts of the first append unchanged; on PMTU_FULL with a COOKIE_ECHO
in the packet it returns PMTU_FULL without emitting; on PMTU_FULL
without a COOKIE_ECHO it emits the accumulated packet (which returns 0
and leaves the packet reset to size = overhead) and then, if one_packet
is false, retries the append exactly once on the drained packet and
returns the retry's verdict, else returns PMTU_FULL. -/
theorem C4_transmit_chunk (s : St) (c : Chunk) (one : Bool) (env : ApEnv) (tx : TxEnv)
    (v : sctp_xmit_t) (s1 : St)
    (happ : sctp_packet_append_chunk s c env = Except.ok (v, s1)) :
    (v ≠ sctp_xmit_t.pmtuFull →
      sctp_packet_transmit_chunk s c one env tx = Except.ok (v, s1))
    ∧ (v = sctp_xmit_t.pmtuFull → s1.has_cookie_echo = true →
      sctp_packet_transmit_chunk s c one env tx = Except.ok (sctp_xmit_t.pmtuFull, s1))
    ∧ (∀ (e : Int) (s2 : St) (o : TxOut),
        v = sctp_xmit_t.pmtuFull → s1.has_cookie_echo = false →
        sctp_packet_transmit s1 tx = Except.ok (e, s2, o) →
        e = 0
        ∧ (s1.chunk_list ≠ [] → s2.size = s2.overhead)
        ∧ (one = true →
            sctp_packet_transmit_chunk s c one env tx =
              Except.ok (sctp_xmit_t.pmtuFull, s2))
        ∧ (one = false →
            sctp_packet_transmit_chunk s c one env tx =
              sctp_packet_append_chunk s2 c env)) := by
  refine ⟨?_, ?_, ?_⟩
  · intro hv
    unfold sctp_packet_transmit_chunk
    rw [happ]
    dsimp only
    cases v with
    | pmtuFull => exact absurd rfl hv
    | ok => rfl
    | rwndFull => rfl
    | delay => rfl
  · intro hv hce
    subst hv
    unfold sctp_packet_transmit_chunk
    rw [happ]
    dsimp only
    rw [if_neg (by rw [hce]; simp)]
  · intro e s2 o hv hce htx
    subst hv
    obtain ⟨he0, _, hsz⟩ := transmit_ok_spec s1 tx e s2 o htx
    subst he0
    refine ⟨rfl, hsz, ?_, ?_⟩
    · intro hone
      subst hone
      unfold sctp_packet_transmit_chunk
      rw [happ]
      dsimp only
      rw [if_pos hce, htx]
      dsimp only
      rw [if_neg (show ¬ ((0 : Int) < 0) by omega)]
      rfl
    · intro hone
      subst hone
      unfold sctp_packet_transmit_chunk
      rw [happ]
      dsimp only
      rw [if_pos hce, htx]
      dsimp only
      rw [if_neg (show ¬ ((0 : Int) < 0) by omega)]
      rfl

/-- Witness for C4: the filled 1480-byte no-GSO packet plus a 40-byte
DATA chunk triggers the PMTU_FULL flush; with one_packet = false the
driver equals a retry append on the drained packet. -/
theorem C4_witness :
    ∃ (e : Int) (s2 : St) (o : TxOut),
      sctp_packet_transmit filledSt txEnvOk = Except.ok (e, s2, o) ∧
      sctp_packet_transmit_chunk filledSt d40 false apEnvNone txEnvOk =
        sctp_packet_append_chunk s2 d40 apEnvNone :=
  ⟨0, _, _, rfl,
    ((C4_transmit_chunk filledSt d40 false apEnvNone txEnvOk
        sctp_xmit_t.pmtuFull filledSt rfl).2.2 0 _ _ rfl rfl rfl).2.2.2 rfl⟩

/-! ## Claim C8: GSO segment count and chunk order -/

/-- Padded skb lengths summed, as the GSO size loop accumulates them. -/
def sumPad (l : List Chunk) : Nat := (l.map (fun x => SCTP_PAD4 x.skb_len)).sum

/-- The maximal prefix of chunks whose padded lengths fit on top of
pktSize without exceeding the pmtu - the packing rule of the GSO size
loop for a packet without an AUTH chunk. -/
def greedyTake (pmtu : Nat) : Nat → List Chunk → List Chunk × List Chunk
  | _, [] => ([], [])
  | pktSize, c :: rest =>
    let padded := SCTP_PAD4 c.skb_len
    if pktSize + padded > pmtu then
      ([], c :: rest)
    else
      let q := greedyTake pmtu (pktSize + padded) rest
      (c :: q.1, q.2)

/-- Greedy first-fit packing of the whole list into sub-packets, each
starting from the overhead.  Fuel bounds the recursion; every use
supplies fuel at least the list length. -/
def greedyPack (pmtu ovh : Nat) : Nat → List Chunk → List (List Chunk)
  | _, [] => []
  | 0, _ :: _ => []
  | Nat.succ fuel, c :: rest =>
    let p := greedyTake pmtu ovh (c :: rest)
    p.1 :: greedyPack pmtu ovh fuel p.2

/-- The ceiling count the claim asserts. -/
def ceilDiv (a b : Nat) : Nat := (a + b - 1) / b

/-- C8 counterexample: three 800-byte chunks on a pmtu-1500 transport
(total 2448, each chunk fits a sub-packet) emit as three greedy
sub-packets - the recorded gso_segs is 3 - while the claim's
ceiling formula gives 2. -/
theorem C8_counterexample :
    (sctp_packet_transmit gso3St txEnvOk).toOption.map
        (fun r => (r.2.2.gsoSegsRecorded, r.2.2.subPackets.map (List.map Chunk.cid)))
      = some (some 3, [[5], [6], [7]])
    ∧ gso3St.size = 2448 ∧ gso3St.tp_pathmtu = 1500
    ∧ ceilDiv 2448 1500 = 2 ∧ (3 : Nat) ≠ 2 :=
  ⟨rfl, rfl, rfl, rfl, by omega⟩

lemma SCTP_PAD4_pos (n : Nat) (h : 0 < n) : 0 < SCTP_PAD4 n := by
  unfold SCTP_PAD4
  omega

lemma sumPad_pos (l : List Chunk) (hne : l ≠ [])
    (hpos : ∀ x ∈ l, 0 < x.skb_len) : 0 < sumPad l := by
  cases l with
  | nil => exact absurd rfl hne
  | cons c rest =>
    have := SCTP_PAD4_pos c.skb_len (hpos c (List.mem_cons_self c rest))
    unfold sumPad
    simp only [List.map_cons, List.sum_cons]
    omega

lemma greedyTake_append (pmtu : Nat) : ∀ (ps : Nat) (l : List Chunk),
    (greedyTake pmtu ps l).1 ++ (greedyTake pmtu ps l).2 = l := by
  intro ps l
  induction l generalizing ps with
  | nil => rfl
  | cons c rest ih =>
    unfold greedyTake
    dsimp only
    split_ifs
    · rfl
    · simp only [List.cons_append, List.cons.injEq, true_and]
      exact ih (ps + SCTP_PAD4 c.skb_len)

lemma greedyTake_ne_nil (pmtu ovh : Nat) (c : Chunk) (rest : List Chunk)
    (hfit : ovh + SCTP_PAD4 c.skb_len ≤ pmtu) :
    (greedyTake pmtu ovh (c :: rest)).1 ≠ [] := by
  unfold greedyTake
  dsimp only
  rw [if_neg (by omega)]
  simp

lemma tx_gso_calc_no_auth (pmtu ovh : Nat) : ∀ (l : List Chunk) (pktSize : Nat),
    (∀ x ∈ l, ovh + SCTP_PAD4 x.skb_len ≤ pmtu) →
    tx_gso_calc pmtu ovh none l 0 pktSize =
      Except.ok (pktSize + sumPad (greedyTake pmtu pktSize l).1, 0) := by
  intro l
  induction l with
  | nil => intro pktSize _; simp [tx_gso_calc, greedyTake, sumPad]
  | cons c rest ih =>
    intro pktSize hfit
    have hc := hfit c (List.mem_cons_self c rest)
    unfold tx_gso_calc greedyTake
    dsimp only
    rw [if_neg (by simp), if_neg (by omega)]
    split_ifs with hover
    · simp [sumPad]
    · rw [ih (pktSize + SCTP_PAD4 c.skb_len)
        (fun x hx => hfit x (List.mem_cons_of_mem c hx))]
      simp only [sumPad, List.map_cons, List.sum_cons, Except.ok.injEq, Prod.mk.injEq,
        and_true]
      omega

lemma sumPad_cons (c : Chunk) (l : List Chunk) :
    sumPad (c :: l) = SCTP_PAD4 c.skb_len + sumPad l := by
  simp [sumPad]

lemma tx_drain_spec : ∀ (xs ys : List Chunk) (rto : Bool), xs ≠ [] →
    (∀ x ∈ xs, 0 < x.skb_len) →
    (tx_drain none (xs ++ ys) ((sumPad xs : Nat) : Int) rto).rem = ys ∧
    (tx_drain none (xs ++ ys) ((sumPad xs : Nat) : Int) rto).stream.map Chunk.cid
      = xs.map Chunk.cid := by
  intro xs
  induction xs with
  | nil => intro ys rto hne; exact absurd rfl hne
  | cons c rest ih =>
    intro ys rto _ hpos
    cases rest with
    | nil =>
      have hz : ((sumPad [c] : Nat) : Int) - ((SCTP_PAD4 c.skb_len : Nat) : Int) = 0 := by
        rw [sumPad_cons]
        simp [sumPad]
      constructor
      · show (tx_drain none (c :: ys) _ rto).rem = ys
        unfold tx_drain
        dsimp only
        rw [hz, if_pos rfl]
      · show (tx_drain none (c :: ys) _ rto).stream.map Chunk.cid = _
        unfold tx_drain
        dsimp only
        rw [hz, if_pos rfl]
        simp only [List.map_cons, List.map_nil, List.cons.injEq, and_true]
        split <;> rfl
    | cons c2 rest2 =>
      have hposr : ∀ x ∈ c2 :: rest2, 0 < x.skb_len :=
        fun x hx => hpos x (List.mem_cons_of_mem c hx)
      have hsumpos : 0 < sumPad (c2 :: rest2) := sumPad_pos _ (by simp) hposr
      have harg : ((sumPad (c :: c2 :: rest2) : Nat) : Int) -
          ((SCTP_PAD4 c.skb_len : Nat) : Int) = ((sumPad (c2 :: rest2) : Nat) : Int) := by
        rw [sumPad_cons]
        push_cast
        ring
      have hne0 : ¬ (((sumPad (c :: c2 :: rest2) : Nat) : Int) -
          ((SCTP_PAD4 c.skb_len : Nat) : Int) = 0) := by
        rw [harg]
        omega
      constructor
      · show (tx_drain none (c :: ((c2 :: rest2) ++ ys)) _ rto).rem = ys
        unfold tx_drain
        dsimp only
        rw [apply_ite DrainRes.rem, if_neg hne0, harg]
        exact (ih ys _ (by simp) hposr).1
      · show (tx_drain none (c :: ((c2 :: rest2) ++ ys)) _ rto).stream.map Chunk.cid = _
        unfold tx_drain
        dsimp only
        rw [apply_ite (fun r => List.map Chunk.cid (DrainRes.stream r)), if_neg hne0, harg]
        simp only [List.map_cons]
        rw [(ih ys _ (by simp) hposr).2]
        congr 1
        split <;> rfl

lemma greedyPack_fuel (pmtu ovh : Nat) : ∀ (f : Nat) (l : List Chunk),
    (∀ x ∈ l, ovh + SCTP_PAD4 x.skb_len ≤ pmtu) → l.length ≤ f →
    greedyPack pmtu ovh f l = greedyPack pmtu ovh l.length l := by
  intro f
  induction f using Nat.strong_induction_on with
  | _ f ih =>
    intro l hfit hlen
    cases l with
    | nil => cases f <;> rfl
    | cons c rest =>
      cases f with
      | zero => simp at hlen
      | succ n =>
        simp only [List.length_cons] at hlen
        have hxs := greedyTake_ne_nil pmtu ovh c rest (hfit c (List.mem_cons_self c rest))
        have hsplit := greedyTake_append pmtu ovh (c :: rest)
        have hlen2 : (greedyTake pmtu ovh (c :: rest)).1.length +
            (greedyTake pmtu ovh (c :: rest)).2.length = rest.length + 1 := by
          have hc := congrArg List.length hsplit
          simpa using hc
        have hx1 : 1 ≤ (greedyTake pmtu ovh (c :: rest)).1.length := by
          cases hxsv : (greedyTake pmtu ovh (c :: rest)).1 with
          | nil => exact absurd hxsv hxs
          | cons _ _ => simp [hxsv]
        have hfitys : ∀ x ∈ (greedyTake pmtu ovh (c :: rest)).2,
            ovh + SCTP_PAD4 x.skb_len ≤ pmtu := by
          intro x hx
          exact hfit x (by rw [← hsplit]; exact List.mem_append.mpr (Or.inr hx))
        simp only [List.length_cons]
        unfold greedyPack
        dsimp only
        congr 1
        have h1 := ih n (by omega) (greedyTake pmtu ovh (c :: rest)).2 hfitys (by omega)
        have h2 := ih rest.length (by omega) (greedyTake pmtu ovh (c :: rest)).2 hfitys
          (by omega)
        rw [h1, h2]

lemma greedyPack_join (pmtu ovh : Nat) : ∀ (f : Nat) (l : List Chunk),
    (∀ x ∈ l, ovh + SCTP_PAD4 x.skb_len ≤ pmtu) → l.length ≤ f →
    (greedyPack pmtu ovh f l).flatten = l := by
  intro f
  induction f using Nat.strong_induction_on with
  | _ f ih =>
    intro l hfit hlen
    cases l with
    | nil => cases f <;> rfl
    | cons c rest =>
      cases f with
      | zero => simp at hlen
      | succ n =>
        simp only [List.length_cons] at hlen
        have hxs := greedyTake_ne_nil pmtu ovh c rest (hfit c (List.mem_cons_self c rest))
        have hsplit := greedyTake_append pmtu ovh (c :: rest)
        have hlen2 : (greedyTake pmtu ovh (c :: rest)).1.length +
            (greedyTake pmtu ovh (c :: rest)).2.length = rest.length + 1 := by
          have hc := congrArg List.length hsplit
          simpa using hc
        have hx1 : 1 ≤ (greedyTake pmtu ovh (c :: rest)).1.length := by
          cases hxsv : (greedyTake pmtu ovh (c :: rest)).1 with
          | nil => exact absurd hxsv hxs
          | cons _ _ => simp [hxsv]
        have hfitys : ∀ x ∈ (greedyTake pmtu ovh (c :: rest)).2,
            ovh + SCTP_PAD4 x.skb_len ≤ pmtu := by
          intro x hx
          exact hfit x (by rw [← hsplit]; exact List.mem_append.mpr (Or.inr hx))
        unfold greedyPack
        dsimp only
        rw [List.flatten_cons]
        rw [ih n (by omega) (greedyTake pmtu ovh (c :: rest)).2 hfitys (by omega)]
        exact hsplit

lemma greedyPack_nil (pmtu ovh f : Nat) : greedyPack pmtu ovh f [] = [] := by
  cases f <;> rfl

lemma tx_loop_gso_spec (env : TxEnv) (pmtu ovh ngps : Nat)
    (hsub : ∀ i, env.subAllocOk i = true) (hgro : ∀ i, env.groOk i = true) :
    ∀ (fuel : Nat) (rem : List Chunk) (rto : Bool) (pc : Nat)
      (subs : List (List Chunk)) (hd : Bool) (fr : List Nat) (N : Nat),
      rem ≠ [] → rem.length < fuel →
      (∀ x ∈ rem, ovh + SCTP_PAD4 x.skb_len ≤ pmtu) →
      (∀ x ∈ rem, 0 < x.skb_len) →
      pc + rem.length ≤ N → N < env.gsoMaxSegs →
      ∃ st2, tx_loop env true pmtu ovh ngps fuel
          { rem := rem, rto_pending := rto, pauth := none, auth_len := 0,
            pktcount := pc, subPackets := subs, has_data := hd, freed := fr }
          = TxLoopRes.done st2
        ∧ st2.rem = [] ∧ st2.pauth = none
        ∧ st2.pktcount = pc + (greedyPack pmtu ovh rem.length rem).length
        ∧ st2.subPackets.map (List.map Chunk.cid) =
            subs.map (List.map Chunk.cid) ++
              (greedyPack pmtu ovh rem.length rem).map (List.map Chunk.cid) := by
  intro fuel
  induction fuel using Nat.strong_induction_on with
  | _ fuel ih =>
    intro rem rto pc subs hd fr N hne hflen hfit hpos hpcN hNseg
    cases fuel with
    | zero => exact absurd hflen (by omega)
    | succ n =>
      obtain ⟨c, rest, rfl⟩ : ∃ c rest, rem = c :: rest := by
        cases rem with
        | nil => exact absurd rfl hne
        | cons a b => exact ⟨a, b, rfl⟩
      simp only [List.length_cons] at hflen hpcN
      have hc := hfit c (List.mem_cons_self c rest)
      have hxs := greedyTake_ne_nil pmtu ovh c rest hc
      have hsplit := greedyTake_append pmtu ovh (c :: rest)
      have hlen2 : (greedyTake pmtu ovh (c :: rest)).1.length +
          (greedyTake pmtu ovh (c :: rest)).2.length = rest.length + 1 := by
        have hcl := congrArg List.length hsplit
        simpa using hcl
      have hx1 : 1 ≤ (greedyTake pmtu ovh (c :: rest)).1.length := by
        cases hxsv : (greedyTake pmtu ovh (c :: rest)).1 with
        | nil => exact absurd hxsv hxs
        | cons _ _ => simp [hxsv]
      have hmemx : ∀ x ∈ (greedyTake pmtu ovh (c :: rest)).1, x ∈ c :: rest :=
        fun x hx => by rw [← hsplit]; exact List.mem_append.mpr (Or.inl hx)
      have hmemy : ∀ x ∈ (greedyTake pmtu ovh (c :: rest)).2, x ∈ c :: rest :=
        fun x hx => by rw [← hsplit]; exact List.mem_append.mpr (Or.inr hx)
      have hposx : ∀ x ∈ (greedyTake pmtu ovh (c :: rest)).1, 0 < x.skb_len :=
        fun x hx => hpos x (hmemx x hx)
      have hdrain := tx_drain_spec (greedyTake pmtu ovh (c :: rest)).1
        (greedyTake pmtu ovh (c :: rest)).2 rto hxs hposx
      rw [hsplit] at hdrain
      have hcast : ((ovh + sumPad (greedyTake pmtu ovh (c :: rest)).1 : Nat) : Int) -
          ((ovh : Nat) : Int) =
          ((sumPad (greedyTake pmtu ovh (c :: rest)).1 : Nat) : Int) := by
        push_cast
        ring
      unfold tx_loop
      dsimp only
      simp only [Option.map_none']
      rw [tx_gso_calc_no_auth pmtu ovh (c :: rest) ovh hfit]
      rw [if_pos (trivial : True)]
      dsimp only
      rw [if_neg (show ¬ (True ∧ env.subAllocOk (pc + 1) = false) by
        rw [hsub (pc + 1)]; simp)]
      rw [hcast]
      rw [if_neg (show ¬ (true = false) by simp),
        if_neg (show ¬ (env.groOk (pc + 1) = false) by rw [hgro (pc + 1)]; simp),
        if_neg (show ¬ pc + 1 ≥ env.gsoMaxSegs by omega)]
      rw [hdrain.1]
      by_cases hys : (greedyTake pmtu ovh (c :: rest)).2 = []
      · rw [if_pos hys]
        refine ⟨_, rfl, hys, rfl, ?_, ?_⟩
        · have hgp : greedyPack pmtu ovh (rest.length + 1) (c :: rest) =
              [(greedyTake pmtu ovh (c :: rest)).1] := by
            unfold greedyPack
            dsimp only
            rw [hys, greedyPack_nil]
          simp only [List.length_cons, hgp, List.length_singleton]
          simp
        · have hgp : greedyPack pmtu ovh (rest.length + 1) (c :: rest) =
              [(greedyTake pmtu ovh (c :: rest)).1] := by
            unfold greedyPack
            dsimp only
            rw [hys, greedyPack_nil]
          simp only [List.length_cons, hgp, List.map_append, List.map_cons, List.map_nil]
          rw [hdrain.2]
      · rw [if_neg hys]
        have hysne : (greedyTake pmtu ovh (c :: rest)).2 ≠ [] := hys
        have hyslt : (greedyTake pmtu ovh (c :: rest)).2.length < n := by
          have hy1 : 1 ≤ (greedyTake pmtu ovh (c :: rest)).2.length := by
            cases hysv : (greedyTake pmtu ovh (c :: rest)).2 with
            | nil => exact absurd hysv hysne
            | cons _ _ => simp [hysv]
          omega
        obtain ⟨st2, hloop, hrem2, hpauth2, hpc2, hsubs2⟩ :=
          ih n (by omega) (greedyTake pmtu ovh (c :: rest)).2 _ (pc + 1)
            (subs ++ [(tx_drain none (c :: rest)
              ((sumPad (greedyTake pmtu ovh (c :: rest)).1 : Nat) : Int) rto).stream])
            _ _ N hysne hyslt
            (fun x hx => hfit x (hmemy x hx)) (fun x hx => hpos x (hmemy x hx))
            (by omega) hNseg
        refine ⟨st2, hloop, hrem2, hpauth2, ?_, ?_⟩
        · rw [hpc2]
          have hgp : greedyPack pmtu ovh (rest.length + 1) (c :: rest) =
              (greedyTake pmtu ovh (c :: rest)).1 ::
                greedyPack pmtu ovh rest.length (greedyTake pmtu ovh (c :: rest)).2 := rfl
          have hfu := greedyPack_fuel pmtu ovh rest.length
            (greedyTake pmtu ovh (c :: rest)).2
            (fun x hx => hfit x (hmemy x hx)) (by omega)
          simp only [List.length_cons, hgp, hfu, List.length_cons]
          omega
        · rw [hsubs2]
          have hgp : greedyPack pmtu ovh (rest.length + 1) (c :: rest) =
              (greedyTake pmtu ovh (c :: rest)).1 ::
                greedyPack pmtu ovh rest.length (greedyTake pmtu ovh (c :: rest)).2 := rfl
          have hfu := greedyPack_fuel pmtu ovh rest.length
            (greedyTake pmtu ovh (c :: rest)).2
            (fun x hx => hfit x (hmemy x hx)) (by omega)
          simp only [List.length_cons, hgp, hfu, List.map_append, List.map_cons]
          rw [hdrain.2]
          simp

/-- C8 (amended): for a GSO emission of an AUTH-free packet whose every
chunk individually fits a PMTU-sized sub-packet (and whose skbs are
nonempty), with all allocations, the route and the GRO merges
succeeding and gso_max_segs not limiting, the emission succeeds, the
recorded gso_segs equals the number of greedily packed sub-packets
(each sub-packet a maximal prefix of the remaining chunks fitting
pathmtu), the sub-packet streams are exactly those greedy groups, and
their concatenation preserves the append order. -/
theorem C8_gso_greedy (s : St) (env : TxEnv) (a : Assoc)
    (hasoc : s.asoc = some a) (hne : s.chunk_list ≠ [])
    (hauth : s.auth = none)
    (hsz : s.size > s.tp_pathmtu) (hfrag : s.ipfragok = false)
    (hgso : env.canGso = true) (hha : env.headAllocOk = true) (hdst : env.dstOk = true)
    (hsub : ∀ i, env.subAllocOk i = true) (hgro : ∀ i, env.groOk i = true)
    (hsegs : s.chunk_list.length < env.gsoMaxSegs)
    (hfit : ∀ x ∈ s.chunk_list, s.overhead + SCTP_PAD4 x.skb_len ≤ s.tp_pathmtu)
    (hpos : ∀ x ∈ s.chunk_list, 0 < x.skb_len) :
    ∃ s2 out, sctp_packet_transmit s env = Except.ok (0, s2, out)
      ∧ out.gsoSegsRecorded =
          some (greedyPack s.tp_pathmtu s.overhead s.chunk_list.length s.chunk_list).length
      ∧ out.subPackets.map (List.map Chunk.cid) =
          (greedyPack s.tp_pathmtu s.overhead s.chunk_list.length s.chunk_list).map
            (List.map Chunk.cid)
      ∧ out.subPackets.flatten.map Chunk.cid = s.chunk_list.map Chunk.cid := by
  obtain ⟨st2, hloop, hrem2, hpauth2, hpc2, hsubs2⟩ :=
    tx_loop_gso_spec env s.tp_pathmtu s.overhead s.size hsub hgro
      (s.chunk_list.length + 1) s.chunk_list s.tp_rto_pending 0 [] false []
      s.chunk_list.length hne (by omega) hfit hpos (by omega) hsegs
  have hsubsOnly : st2.subPackets.map (List.map Chunk.cid) =
      (greedyPack s.tp_pathmtu s.overhead s.chunk_list.length s.chunk_list).map
        (List.map Chunk.cid) := by
    rw [hsubs2]
    simp
  have hflat : st2.subPackets.flatten.map Chunk.cid = s.chunk_list.map Chunk.cid := by
    rw [List.map_flatten, hsubsOnly, ← List.map_flatten,
      greedyPack_join s.tp_pathmtu s.overhead s.chunk_list.length s.chunk_list hfit
        (le_refl _)]
  have hpcOnly : st2.pktcount =
      (greedyPack s.tp_pathmtu s.overhead s.chunk_list.length s.chunk_list).length := by
    rw [hpc2]
    omega
  unfold sctp_packet_transmit
  rw [if_neg hne]
  have hgsoT : (decide (s.size > s.tp_pathmtu) && !s.ipfragok) = true := by
    rw [hfrag]
    simp [hsz]
  rw [hgsoT]
  rw [if_neg (show ¬ (true = true ∧ env.canGso = false) by rw [hgso]; simp)]
  rw [if_neg (show ¬ (env.headAllocOk = false) by rw [hha]; simp)]
  rw [if_neg (show ¬ (env.dstOk = false) by rw [hdst]; simp)]
  rw [hauth]
  dsimp only
  rw [hloop]
  dsimp only
  rw [show (tx_writeback s st2).asoc = s.asoc from rfl, hasoc]
  dsimp only
  by_cases hhd : st2.has_data = true
  · rw [if_pos hhd]
    refine ⟨_, _, rfl, ?_, ?_, ?_⟩
    · show (if true = true then some st2.pktcount else none) = _
      rw [if_pos rfl, hpcOnly]
    · exact hsubsOnly
    · exact hflat
  · rw [if_neg hhd]
    refine ⟨_, _, rfl, ?_, ?_, ?_⟩
    · show (if true = true then some st2.pktcount else none) = _
      rw [if_pos rfl, hpcOnly]
    · exact hsubsOnly
    · exact hflat

/-- Witness for the amended C8 at the three-chunk GSO packet: the
emission succeeds and matches the greedy packing. -/
theorem C8_witness :
    ∃ s2 out, sctp_packet_transmit gso3St txEnvOk = Except.ok (0, s2, out)
      ∧ out.gsoSegsRecorded =
          some (greedyPack gso3St.tp_pathmtu gso3St.overhead
            gso3St.chunk_list.length gso3St.chunk_list).length
      ∧ out.subPackets.map (List.map Chunk.cid) =
          (greedyPack gso3St.tp_pathmtu gso3St.overhead
            gso3St.chunk_list.length gso3St.chunk_list).map (List.map Chunk.cid)
      ∧ out.subPackets.flatten.map Chunk.cid = gso3St.chunk_list.map Chunk.cid :=
  C8_gso_greedy gso3St txEnvOk baseAssoc rfl (by decide) rfl (by decide) rfl rfl rfl rfl
    (fun _ => rfl) (fun _ => rfl) (by decide) (by decide) (by decide)

end SctpOut
